import Mathlib

/-!
# monitor-infra: the storage layer (internal/storage/sqlite.go)

A shallow embedding of the SQLite-backed store.  The two tables are lists of
rows kept in rowid order, the AUTOINCREMENT counters of sqlite_sequence and the
last_insert_rowid of the single pooled connection are explicit state, and every
statement executed by the Go methods is a function on that state.

Conventions.
* Timestamps are UTC seconds.  SQLite keeps them as fixed-width text
  (YYYY-MM-DD HH:MM:SS) whose lexical order is the chronological order, so the
  text comparisons of the queries are integer comparisons here.  The instant a
  statement runs at (CURRENT_TIMESTAMP, datetime(now)) is the argument now, in
  seconds; the reading of the Go clock (time.Now()) is the argument nowNs, in
  nanoseconds.
* REAL columns hold finite float64 values; they are embedded as rationals, on
  which the comparisons of the queries agree with the float comparisons.
* A statement either succeeds or fails on a constraint of the schema.  Faults of
  the database file itself are outside the model.
-/

namespace Monitor

/-! ## Schema (initSchema) -/

/-- One row of table machines. -/
structure MachineRow where
  id : Int
  hostname : String
  ip : String
  group_name : String
  swarm_role : String
  first_seen : Int
  last_seen : Int
deriving DecidableEq, Repr

/-- One row of table metrics. -/
structure MetricRow where
  id : Int
  machine_id : Int
  collected_at : Int
  cpu_percent : Rat
  memory_percent : Rat
  disk_percent : Rat
  docker_running : Int
  docker_stopped : Int
deriving DecidableEq, Repr

/-- The database behind the sql.DB handle: both tables, the sqlite_sequence
entries of the two AUTOINCREMENT keys, and the last_insert_rowid of the one
connection the pool holds (SetMaxOpenConns(1)). -/
structure DB where
  machines : List MachineRow
  metrics : List MetricRow
  seq_machines : Int
  seq_metrics : Int
  last_insert_rowid : Int
deriving DecidableEq, Repr

/-- Go struct Storage. -/
structure Storage where
  db : DB
  retentionDays : Int
deriving DecidableEq, Repr

/-- Go struct Metrics. -/
structure Metrics where
  CPUPercent : Rat
  MemoryPercent : Rat
  DiskPercent : Rat
  DockerRunning : Int
  DockerStopped : Int
deriving DecidableEq, Repr

/-- Go struct MetricPayload. -/
structure MetricPayload where
  Hostname : String
  IP : String
  GroupName : String
  SwarmRole : String
  CPUPercent : Rat
  MemoryPercent : Rat
  DiskPercent : Rat
  DockerRunning : Int
  DockerStopped : Int
deriving DecidableEq, Repr

/-- Go struct Machine, as returned by the read methods.  The Metrics pointer is
an Option; FirstSeen and LastSeen are the parsed timestamps in seconds. -/
structure Machine where
  ID : Int
  Hostname : String
  IP : String
  GroupName : String
  SwarmRole : String
  FirstSeen : Int
  LastSeen : Int
  IsOnline : Bool
  Metrics : Option Metrics
deriving DecidableEq, Repr

/-- The database right after New on a fresh file: empty tables, no sequence
entries, a connection that has not inserted anything. -/
def emptyDB : DB :=
  { machines := [], metrics := [], seq_machines := 0, seq_metrics := 0, last_insert_rowid := 0 }

/-- Storage returned by New on a fresh file. -/
def New (retentionDays : Int) : Storage :=
  { db := emptyDB, retentionDays := retentionDays }

/-! ## SQL helpers -/

/-- SQL NULLIF(a, b): NULL when the two are equal, a otherwise. -/
def NULLIF (a b : String) : Option String :=
  if a = b then none else some a

/-- SQL COALESCE(a, b) with a nullable first argument. -/
def COALESCE {α : Type} (a : Option α) (b : α) : α :=
  match a with
  | some v => v
  | none => b

/-- Largest rowid in use (0 for an empty table). -/
def maxRowid (ids : List Int) : Int :=
  ids.foldl max 0

/-- Rowid chosen for a new row of an INTEGER PRIMARY KEY AUTOINCREMENT table:
one more than the largest rowid the table has ever held.  Rowids are unbounded
here; the 63-bit limit of SQLite is never reached. -/
def newRowid (seq : Int) (ids : List Int) : Int :=
  max seq (maxRowid ids) + 1

/-! ## UpsertMachine -/

/-- The SET clause of the upsert, applied to the conflicting row. -/
def upsertUpdateRow (m : MachineRow) (now : Int) (ip groupName swarmRole : String) : MachineRow :=
  { m with
    ip := ip
    group_name := COALESCE (NULLIF groupName "") m.group_name
    swarm_role := swarmRole
    last_seen := now }

/-- The statement
INSERT INTO machines (hostname, ip, group_name, swarm_role, last_seen) VALUES (..)
ON CONFLICT(hostname) DO UPDATE SET ...
A new rowid is drawn first (this advances the sequence on either path).  Without
a conflict the row is appended, first_seen takes its default CURRENT_TIMESTAMP
and the connection records the rowid; on a conflict the existing row is updated
and last_insert_rowid keeps its previous value. -/
def execUpsert (db : DB) (now : Int) (hostname ip groupName swarmRole : String) : DB :=
  let rowid := newRowid db.seq_machines (db.machines.map (·.id))
  if db.machines.any (fun m => decide (m.hostname = hostname)) then
    { db with
      machines := db.machines.map (fun m =>
        if m.hostname = hostname then upsertUpdateRow m now ip groupName swarmRole else m)
      seq_machines := rowid }
  else
    { db with
      machines := db.machines ++
        [{ id := rowid, hostname := hostname, ip := ip, group_name := groupName,
           swarm_role := swarmRole, first_seen := now, last_seen := now }]
      seq_machines := rowid
      last_insert_rowid := rowid }

/-- The query SELECT id FROM machines WHERE hostname = ? scanned by QueryRow:
the id of the first matching row, or no row. -/
def selectIdByHostname (db : DB) (hostname : String) : Option Int :=
  (db.machines.find? (fun m => decide (m.hostname = hostname))).map (·.id)

/-- UpsertMachine: run the upsert, return result.LastInsertId() when it is
positive, otherwise look the id up by hostname. -/
def UpsertMachine (s : Storage) (now : Int) (hostname ip groupName swarmRole : String) :
    Except String Int × Storage :=
  let db1 := execUpsert s.db now hostname ip groupName swarmRole
  let s1 : Storage := { s with db := db1 }
  let id := db1.last_insert_rowid
  if id > 0 then
    (Except.ok id, s1)
  else
    match selectIdByHostname db1 hostname with
    | some machineID => (Except.ok machineID, s1)
    | none => (Except.error "erro ao buscar ID da máquina", s1)

/-! ## InsertMetrics and SaveMetrics -/

/-- The statement
INSERT INTO metrics (machine_id, cpu_percent, ..., docker_stopped) VALUES (..).
The connection is opened with _foreign_keys=on, so the insert fails unless a
machine row with that id exists; a failed statement leaves the database as it
was.  collected_at takes its default CURRENT_TIMESTAMP. -/
def execInsertMetrics (db : DB) (now : Int) (machineID : Int) (m : Metrics) : Option DB :=
  if db.machines.any (fun r => decide (r.id = machineID)) then
    let rowid := newRowid db.seq_metrics (db.metrics.map (·.id))
    some { db with
      metrics := db.metrics ++
        [{ id := rowid, machine_id := machineID, collected_at := now,
           cpu_percent := m.CPUPercent, memory_percent := m.MemoryPercent,
           disk_percent := m.DiskPercent, docker_running := m.DockerRunning,
           docker_stopped := m.DockerStopped }]
      seq_metrics := rowid
      last_insert_rowid := rowid }
  else
    none

/-- InsertMetrics: one insert, its error wrapped. -/
def InsertMetrics (s : Storage) (now : Int) (machineID : Int) (m : Metrics) :
    Except String Unit × Storage :=
  match execInsertMetrics s.db now machineID m with
  | some db1 => (Except.ok (), { s with db := db1 })
  | none => (Except.error "erro ao inserir métricas: FOREIGN KEY constraint failed", s)

/-- SaveMetrics: UpsertMachine, then InsertMetrics under the id it returned.
The two statements are not wrapped in a transaction. -/
def SaveMetrics (s : Storage) (now : Int) (payload : MetricPayload) : Except String Int × Storage :=
  match UpsertMachine s now payload.Hostname payload.IP payload.GroupName payload.SwarmRole with
  | (Except.error err, s1) => (Except.error err, s1)
  | (Except.ok machineID, s1) =>
    let metrics : Metrics :=
      { CPUPercent := payload.CPUPercent
        MemoryPercent := payload.MemoryPercent
        DiskPercent := payload.DiskPercent
        DockerRunning := payload.DockerRunning
        DockerStopped := payload.DockerStopped }
    match InsertMetrics s1 now machineID metrics with
    | (Except.error err, s2) => (Except.error err, s2)
    | (Except.ok (), s2) => (Except.ok machineID, s2)

/-! ## CleanupOldMetrics -/

/-- The modifier Sprintf("-%d days", days) or Sprintf("-%d hours", ..) applied to
now: for a negative argument the text starts with two minus signs, which is no
valid modifier, and the function yields NULL.  The range of dates SQLite
represents is checked in datetimeChecked; the DELETE below takes the shifted
instant as it is, which selects the same rows among samples dated within that
range (olderThan_checked). -/
def datetimeMinus (now : Int) (amount : Int) (unitSeconds : Int) : Option Int :=
  if amount < 0 then none else some (now - amount * unitSeconds)

/-- First instant SQLite represents, -4713-11-24 12:00:00 (Julian day 0), in
seconds since the epoch. -/
def minDate : Int := -210866760000

/-- Last instant SQLite represents, 9999-12-31 23:59:59. -/
def maxDate : Int := 253402300799

/-- An instant lies in the range of dates SQLite represents. -/
def validDate (t : Int) : Bool :=
  decide (minDate ≤ t ∧ t ≤ maxDate)

/-- SQL datetime(now, modifier) in full: NULL for an invalid modifier, and NULL
when now or the shifted instant leaves the range of dates SQLite represents. -/
def datetimeChecked (now : Int) (amount : Int) (unitSeconds : Int) : Option Int :=
  match datetimeMinus now amount unitSeconds with
  | some c => if validDate now && validDate c then some c else none
  | none => none

/-- The WHERE clause collected_at < datetime(now, ?) of the DELETE; a comparison
with NULL selects no row. -/
def olderThan (cutoff : Option Int) (r : MetricRow) : Bool :=
  match cutoff with
  | some c => decide (r.collected_at < c)
  | none => false

/-- CleanupOldMetrics: DELETE FROM metrics WHERE collected_at < datetime(now, -N days)
with N = retentionDays; returns result.RowsAffected(). -/
def CleanupOldMetrics (s : Storage) (now : Int) : Except String Int × Storage :=
  let cutoff := datetimeMinus now s.retentionDays 86400
  let kept := s.db.metrics.filter (fun r => !olderThan cutoff r)
  let deleted := s.db.metrics.filter (olderThan cutoff)
  (Except.ok (deleted.length : Int), { s with db := { s.db with metrics := kept } })

/-! ## Latest sample per machine -/

/-- Order of the rows of one machine under ORDER BY collected_at DESC: a later
timestamp comes first.  The clause names no second key; rows with equal
timestamps come in the order of the index idx_metrics_machine_time the scan
runs on, which is ascending rowid. -/
def comesBefore (a b : MetricRow) : Bool :=
  decide (a.collected_at > b.collected_at) ||
    (decide (a.collected_at = b.collected_at) && decide (a.id < b.id))

/-- ROW_NUMBER() OVER (PARTITION BY machine_id ORDER BY collected_at DESC) of a
row: its position, from 1, among the rows with the same machine_id. -/
def rowNumber (metrics : List MetricRow) (r : MetricRow) : Nat :=
  (metrics.filter (fun x => decide (x.machine_id = r.machine_id) && comesBefore x r)).length + 1

/-- The rows of the derived table met that the join condition met.rn = 1 lets
through, in scan order. -/
def metRn1 (metrics : List MetricRow) : List MetricRow :=
  metrics.filter (fun r => decide (rowNumber metrics r = 1))

/-- First row of a list under ORDER BY collected_at DESC (LIMIT 1). -/
def firstByCollectedDesc : List MetricRow → Option MetricRow
  | [] => none
  | r :: rest =>
    match firstByCollectedDesc rest with
    | none => some r
    | some b => if comesBefore b r then some b else some r

/-- The subquery of GetMachineByID:
SELECT .. FROM metrics WHERE machine_id = ? ORDER BY collected_at DESC LIMIT 1. -/
def metLimit1 (metrics : List MetricRow) (id : Int) : Option MetricRow :=
  firstByCollectedDesc (metrics.filter (fun r => decide (r.machine_id = id)))

/-! ## GetMachinesWithMetrics and GetMachineByID -/

/-- The five COALESCE(met.x, 0) columns of a joined row, scanned into Metrics;
an unmatched machine of the LEFT JOIN carries NULLs. -/
def scanMetrics (met : Option MetricRow) : Metrics :=
  { CPUPercent := COALESCE (met.map (·.cpu_percent)) 0
    MemoryPercent := COALESCE (met.map (·.memory_percent)) 0
    DiskPercent := COALESCE (met.map (·.disk_percent)) 0
    DockerRunning := COALESCE (met.map (·.docker_running)) 0
    DockerStopped := COALESCE (met.map (·.docker_stopped)) 0 }

/-- parseDateTime: the stored text of a timestamp column parsed back into an
instant.  The driver hands a DATETIME column over in one of the layouts the
function tries, so on a stored timestamp it returns the instant written. -/
def parseDateTime (stored : Int) : Int :=
  stored

/-- Body of the scan loop: fill a Machine from one joined row.  nowNs is
time.Now() in nanoseconds since the epoch, now.Sub(m.LastSeen) a difference of
nanoseconds; onlineThreshold is 70 minutes. -/
def scanMachine (nowNs : Int) (m : MachineRow) (met : Option MetricRow) : Machine :=
  { ID := m.id
    Hostname := m.hostname
    IP := m.ip
    GroupName := m.group_name
    SwarmRole := m.swarm_role
    FirstSeen := parseDateTime m.first_seen
    LastSeen := parseDateTime m.last_seen
    IsOnline := decide (nowNs - parseDateTime m.last_seen * 1000000000 < 70 * 60 * 1000000000)
    Metrics := some (scanMetrics met) }

/-- LEFT JOIN of one machine row with a list of candidate met rows on
m.id = met.machine_id: one joined row per match, or one row of NULLs. -/
def leftJoin (m : MachineRow) (met : List MetricRow) : List (MachineRow × Option MetricRow) :=
  match met.filter (fun r => decide (m.id = r.machine_id)) with
  | [] => [(m, none)]
  | ms => ms.map (fun r => (m, some r))

/-- Order of two TEXT values under the collation BINARY (memcmp of the UTF-8
bytes, which is the lexicographic order of the code points): strictly less. -/
def binaryLT : List Char → List Char → Bool
  | [], [] => false
  | [], _ :: _ => true
  | _ :: _, [] => false
  | a :: as, b :: bs =>
    decide (a.toNat < b.toNat) || (decide (a.toNat = b.toNat) && binaryLT as bs)

/-- ORDER BY m.group_name, m.hostname: row a may stand before row b. -/
def groupHostLE (a b : MachineRow × Option MetricRow) : Bool :=
  binaryLT a.1.group_name.data b.1.group_name.data ||
    (decide (a.1.group_name = b.1.group_name) &&
      !binaryLT b.1.hostname.data a.1.hostname.data)

/-- GetMachinesWithMetrics: every machine LEFT JOINed with its rn = 1 row of
met, ordered by group and hostname, each row scanned into a Machine. -/
def GetMachinesWithMetrics (s : Storage) (nowNs : Int) : Except String (List Machine) :=
  let joined := s.db.machines.flatMap (fun m => leftJoin m (metRn1 s.db.metrics))
  let ordered := joined.insertionSort (fun a b => groupHostLE a b = true)
  Except.ok (ordered.map (fun row => scanMachine nowNs row.1 row.2))

/-- GetMachineByID: the machine with that id LEFT JOINed with the LIMIT 1
subquery; QueryRow scans the first row, and sql.ErrNoRows becomes (nil, nil). -/
def GetMachineByID (s : Storage) (nowNs : Int) (id : Int) : Except String (Option Machine) :=
  let joined := (s.db.machines.filter (fun m => decide (m.id = id))).flatMap
    (fun m => leftJoin m (metLimit1 s.db.metrics id).toList)
  match joined with
  | [] => Except.ok none
  | row :: _ => Except.ok (some (scanMachine nowNs row.1 row.2))

/-! ## GetStats -/

/-- The map returned by GetStats, one field per key. -/
structure Stats where
  total_machines : Int
  online : Int
  warning : Int
  offline : Int
  total_containers : Int
deriving DecidableEq, Repr

/-- The inner JOIN of GetStats: machines m JOIN met ON m.id = met.machine_id AND
met.rn = 1. -/
def innerJoinRn1 (db : DB) : List (MachineRow × MetricRow) :=
  db.machines.flatMap (fun m =>
    ((metRn1 db.metrics).filter (fun r => decide (m.id = r.machine_id))).map (fun r => (m, r)))

/-- The WHERE clause of the warning count. -/
def aboveWarning (r : MetricRow) : Bool :=
  decide (r.cpu_percent > 85) || decide (r.memory_percent > 85) || decide (r.disk_percent > 85)

/-- One step of SUM over an INTEGER column: the running total is a 64-bit signed
integer, and leaving that range fails the statement. -/
def sumStep (acc : Except String Int) (x : Int) : Except String Int :=
  match acc with
  | Except.ok t =>
      if -9223372036854775808 ≤ t + x ∧ t + x ≤ 9223372036854775807 then Except.ok (t + x)
      else Except.error "integer overflow"
  | Except.error e => Except.error e

/-- SQL SUM over an INTEGER column, rows in the order they are read: NULL for no
rows, the error "integer overflow" once the running total leaves 64 bits. -/
def SUM (xs : List Int) : Except String (Option Int) :=
  match xs with
  | [] => Except.ok none
  | _ =>
    match xs.foldl sumStep (Except.ok 0) with
    | Except.ok t => Except.ok (some t)
    | Except.error e => Except.error e

/-- SELECT COALESCE(SUM(met.docker_running), 0) over the inner join. -/
def sumContainers (db : DB) : Except String Int :=
  match SUM ((innerJoinRn1 db).map (·.2.docker_running)) with
  | Except.ok v => Except.ok (COALESCE v 0)
  | Except.error e => Except.error e

/-- QueryRow(..).Scan(&v) where the returned error is not looked at: on a
failed query v keeps the zero value it was declared with. -/
def scanIgnoringError (q : Except String Int) : Int :=
  match q with
  | Except.ok v => v
  | Except.error _ => 0

/-- GetStats: five independent queries, their Scan errors ignored; now is the
instant of datetime(now, -70 minutes). -/
def GetStats (s : Storage) (now : Int) : Except String Stats :=
  let totalMachines : Int := s.db.machines.length
  let onlineMachines : Int :=
    (s.db.machines.filter (fun m => decide (m.last_seen > now - 70 * 60))).length
  let warningMachines : Int :=
    (((innerJoinRn1 s.db).filter (fun p => aboveWarning p.2)).map (·.1.id)).dedup.length
  let totalContainers : Int := scanIgnoringError (sumContainers s.db)
  Except.ok
    { total_machines := totalMachines
      online := onlineMachines
      warning := warningMachines
      offline := totalMachines - onlineMachines
      total_containers := totalContainers }

/-! ## The store as a transition system -/

/-- The pool closing its connection (SetConnMaxLifetime(time.Hour)) and opening
a new one: the new connection has inserted nothing yet. -/
def reconnect (s : Storage) : Storage :=
  { s with db := { s.db with last_insert_rowid := 0 } }

/-- One call of a writing method of Storage, with the instant it runs at. -/
inductive Op where
  | upsertMachine (now : Int) (hostname ip groupName swarmRole : String)
  | insertMetrics (now : Int) (machineID : Int) (m : Metrics)
  | saveMetrics (now : Int) (payload : MetricPayload)
  | cleanupOldMetrics (now : Int)
  | reconnect
deriving DecidableEq, Repr

/-- The store after one call. -/
def step (s : Storage) : Op → Storage
  | Op.upsertMachine now h ip g r => (UpsertMachine s now h ip g r).2
  | Op.insertMetrics now id m => (InsertMetrics s now id m).2
  | Op.saveMetrics now p => (SaveMetrics s now p).2
  | Op.cleanupOldMetrics now => (CleanupOldMetrics s now).2
  | Op.reconnect => reconnect s

/-- The store after a sequence of calls, oldest first. -/
def run (s : Storage) (ops : List Op) : Storage :=
  ops.foldl step s

/-- A store is reachable when some sequence of calls leads to it from the store
New returns on a fresh database file. -/
def Reachable (s : Storage) : Prop :=
  ∃ ops : List Op, run (New s.retentionDays) ops = s

/-- The five values of a sample. -/
def MetricRow.values (r : MetricRow) : Metrics :=
  { CPUPercent := r.cpu_percent
    MemoryPercent := r.memory_percent
    DiskPercent := r.disk_percent
    DockerRunning := r.docker_running
    DockerStopped := r.docker_stopped }

/-- The samples of one machine. -/
def samplesOf (s : Storage) (machineID : Int) : List MetricRow :=
  s.db.metrics.filter (fun r => decide (r.machine_id = machineID))

/-! ## GetMetricsHistory -/

/-- One element of the history list: the map built from a scanned row. -/
structure HistoryEntry where
  collected_at : Int
  cpu_percent : Rat
  memory_percent : Rat
  disk_percent : Rat
  docker_running : Int
  docker_stopped : Int
deriving DecidableEq, Repr

/-- The six columns the history query selects from a row. -/
def historyEntry (r : MetricRow) : HistoryEntry :=
  { collected_at := r.collected_at
    cpu_percent := r.cpu_percent
    memory_percent := r.memory_percent
    disk_percent := r.disk_percent
    docker_running := r.docker_running
    docker_stopped := r.docker_stopped }

/-- The condition collected_at > datetime(now, ?) of the history query; a
comparison with NULL selects no row. -/
def newerThan (cutoff : Option Int) (r : MetricRow) : Bool :=
  match cutoff with
  | some c => decide (r.collected_at > c)
  | none => false

/-- Row a may stand before row b under ORDER BY collected_at DESC, rows with
equal timestamps taken in index order (ascending rowid). -/
def historyOrder (a b : MetricRow) : Prop :=
  comesBefore b a = false

instance historyOrderDecidable : DecidableRel historyOrder :=
  fun a b => inferInstanceAs (Decidable (comesBefore b a = false))

/-- GetMetricsHistory:
SELECT collected_at, .. FROM metrics
WHERE machine_id = ? AND collected_at > datetime(now, -N hours)
ORDER BY collected_at DESC, every row appended to the list. -/
def GetMetricsHistory (s : Storage) (now : Int) (machineID : Int) (hours : Int) :
    Except String (List HistoryEntry) :=
  let cutoff := datetimeChecked now hours 3600
  let rows := s.db.metrics.filter
    (fun r => decide (r.machine_id = machineID) && newerThan cutoff r)
  let ordered := rows.insertionSort historyOrder
  Except.ok (ordered.map historyEntry)

/-! ## GetStats with failing queries -/

/-- Outcomes of the four queries of GetStats: COUNT of machines, COUNT of
machines seen within 70 minutes, COUNT of machines whose latest sample is above
85, SUM of running containers. -/
structure StatsQueries where
  total : Except String Int
  online : Except String Int
  warning : Except String Int
  containers : Except String Int

/-- Body of GetStats over the outcomes of its four queries: each is scanned with
its error ignored, and the method returns the map with a nil error. -/
def GetStatsFrom (q : StatsQueries) : Except String Stats :=
  let totalMachines := scanIgnoringError q.total
  let onlineMachines := scanIgnoringError q.online
  let warningMachines := scanIgnoringError q.warning
  let totalContainers := scanIgnoringError q.containers
  Except.ok
    { total_machines := totalMachines
      online := onlineMachines
      warning := warningMachines
      offline := totalMachines - onlineMachines
      total_containers := totalContainers }

/-- The outcomes of the four queries on a working database. -/
def statsQueries (s : Storage) (now : Int) : StatsQueries :=
  { total := Except.ok (s.db.machines.length : Int)
    online := Except.ok
      ((s.db.machines.filter (fun m => decide (m.last_seen > now - 70 * 60))).length : Int)
    warning := Except.ok
      ((((innerJoinRn1 s.db).filter (fun p => aboveWarning p.2)).map (·.1.id)).dedup.length : Int)
    containers := sumContainers s.db }

/-- The outcomes of the four queries once the database handle is closed (after
Close): every QueryRow fails. -/
def closedQueries : StatsQueries :=
  { total := Except.error "sql: database is closed"
    online := Except.error "sql: database is closed"
    warning := Except.error "sql: database is closed"
    containers := Except.error "sql: database is closed" }

/-! ## handleMetrics (cmd/server/main.go) -/

/-- What a handler writes: the status code and the body. -/
inductive Body where
  | text (message : String)
  | jsonError (message : String)
  | jsonOk (machine_id : Int)
deriving DecidableEq, Repr

/-- An HTTP response. -/
structure Response where
  code : Nat
  body : Body
deriving DecidableEq, Repr

/-- handleMetrics: method is r.Method, decoded the outcome of decoding the body
into a MetricPayload (none when Decode fails), now the instant the statements
of SaveMetrics run at. -/
def handleMetrics (s : Storage) (now : Int) (method : String) (decoded : Option MetricPayload) :
    Response × Storage :=
  if method ≠ "POST" then
    ({ code := 405, body := Body.text "Method not allowed" }, s)
  else
    match decoded with
    | none => ({ code := 400, body := Body.jsonError "Erro ao decodificar payload" }, s)
    | some payload =>
      if payload.Hostname = "" then
        ({ code := 400, body := Body.jsonError "hostname é obrigatório" }, s)
      else
        match SaveMetrics s now payload with
        | (Except.error _, s1) =>
          ({ code := 500, body := Body.jsonError "Erro ao salvar métricas" }, s1)
        | (Except.ok machineID, s1) =>
          ({ code := 201, body := Body.jsonOk machineID }, s1)

/-! ## Dashboard script (internal/dashboard/templates.go) -/

/-- Constant ONLINE_THRESHOLD_MINUTES of the script. -/
def ONLINE_THRESHOLD_MINUTES : Rat := 70

/-- Constant WARNING_THRESHOLD of the script. -/
def WARNING_THRESHOLD : Rat := 85

/-- getStatusClass(machine).  nowMs is new Date() in milliseconds;
new Date(machine.last_seen) is the last_seen of the JSON machine in
milliseconds; machine.metrics is the Metrics pointer of the encoded Machine.
The quotient is the exact one: for a difference of whole milliseconds the double
the script computes is above 70 exactly when the exact quotient is. -/
def getStatusClass (machine : Machine) (nowMs : Int) : String :=
  let lastSeen : Int := machine.LastSeen * 1000
  let diffMinutes : Rat := ((nowMs - lastSeen : Int) : Rat) / 1000 / 60
  if diffMinutes > ONLINE_THRESHOLD_MINUTES then
    "offline"
  else
    match machine.Metrics with
    | some m =>
      if m.CPUPercent > WARNING_THRESHOLD ∨ m.MemoryPercent > WARNING_THRESHOLD ∨
          m.DiskPercent > WARNING_THRESHOLD then
        "warning"
      else
        "online"
    | none => "online"

/-! ## The clock along a sequence of calls -/

/-- The instant a call runs at; recycling the connection executes no
statement. -/
def Op.time : Op → Option Int
  | Op.upsertMachine now _ _ _ _ => some now
  | Op.insertMetrics now _ _ => some now
  | Op.saveMetrics now _ => some now
  | Op.cleanupOldMetrics now => some now
  | Op.reconnect => none

/-- The clock does not go back: every call of the sequence runs at an instant
not earlier than t0 and not earlier than the calls before it. -/
def clockNondecreasing (t0 : Int) : List Op → Bool
  | [] => true
  | op :: ops =>
    match op.time with
    | some t => decide (t0 ≤ t) && clockNondecreasing t ops
    | none => clockNondecreasing t0 ops

/-! ## authMiddleware and scheduleDailyCleanup (cmd/server/main.go) -/

/-- What the handlers read of a request: r.Method, the value
r.Header.Get("Authorization") returns (empty when the header is absent) and the
outcome of decoding the body. -/
structure Request where
  method : String
  authorization : String
  body : Option MetricPayload
deriving DecidableEq, Repr

/-- authMiddleware(next): with no token configured the request goes to next;
otherwise the Authorization header must equal "Bearer " + token, and a request
that fails the test is answered 401 without next being called. -/
def authMiddleware (token : String) (next : Request → Storage → Response × Storage)
    (r : Request) (s : Storage) : Response × Storage :=
  if token = "" then
    next r s
  else
    let auth := r.authorization
    let expectedAuth := "Bearer " ++ token
    if auth ≠ expectedAuth then
      ({ code := 401, body := Body.text "Unauthorized" }, s)
    else
      next r s

/-- The route /api/metrics: handleMetrics behind authMiddleware. -/
def metricsRoute (token : String) (now : Int) (r : Request) (s : Storage) : Response × Storage :=
  authMiddleware token (fun req st => handleMetrics st now req.method req.body) r s

/-- Nanoseconds in a day. -/
def dayNs : Int := 24 * 3600 * 1000000000

/-- One period of a time zone as the lookup of a location reports it: the offset
east of UTC and the instants it is in force from start up to, not including,
stop.  Instants and offsets are nanoseconds. -/
structure Zone where
  offset : Int
  start : Int
  stop : Int
deriving DecidableEq, Repr

/-- A time.Location, given by its lookup: the period in force at an instant. -/
abbrev Location : Type := Int → Zone

/-- The location UTC. -/
def utcLocation : Location :=
  fun _ => { offset := 0, start := -9223372036854775808000000000,
             stop := 9223372036854775807000000000 }

/-- The location America/New_York between November 2023 and November 2024:
EST (UTC-5) until 2024-03-10 07:00:00 UTC, EDT (UTC-4) from then on. -/
def newYork : Location :=
  fun t =>
    if t < 1710054000000000000 then
      { offset := -18000000000000, start := 1699164000000000000,
        stop := 1710054000000000000 }
    else
      { offset := -14400000000000, start := 1710054000000000000,
        stop := 1730613600000000000 }

/-- time.Date(now.Year(), now.Month(), now.Day(), 3, 0, 0, 0, now.Location()):
03:00:00 of the local day now falls in.  The wall-clock reading is first taken
as if it were UTC (unix); the offset found there is applied, and looked up again
at the resulting instant when that instant is outside the period found. -/
def todayAtThree (loc : Location) (nowNs : Int) : Int :=
  let localNow := nowNs + (loc nowNs).offset
  let unix := localNow / dayNs * dayNs + 3 * 3600 * 1000000000
  let z := loc unix
  if z.offset ≠ 0 then
    let utc := unix - z.offset
    if utc < z.start ∨ utc ≥ z.stop then unix - (loc utc).offset else unix - z.offset
  else
    unix

/-- Local wall-clock time of an instant, in nanoseconds since local midnight. -/
def wallClock (loc : Location) (tNs : Int) : Int :=
  (tNs + (loc tNs).offset) % dayNs

/-- The next run computed by one iteration of scheduleDailyCleanup:
today at 03:00, moved on by next.Add(24 * time.Hour), an absolute duration, if
now.After(next). -/
def nextCleanup (loc : Location) (nowNs : Int) : Int :=
  let next := todayAtThree loc nowNs
  if nowNs > next then next + 24 * 3600 * 1000000000 else next

/-! ## SaveMetrics calls one after the other -/

/-- A batch of SaveMetrics calls scheduled one after the other on the single
connection, each with the instant it runs at: the results in call order and the
store they leave. -/
def saveSerially (s : Storage) : List (Int × MetricPayload) → List (Except String Int) × Storage
  | [] => ([], s)
  | call :: rest =>
    let r := SaveMetrics s call.1 call.2
    let rs := saveSerially r.2 rest
    (r.1 :: rs.1, rs.2)

/-! ## Dashboard script: groupMachines and render -/

/-- Three-way comparison of two sequences of character codes, position by
position: negative, zero or positive. -/
def compareCodes : List Nat → List Nat → Int
  | [], [] => 0
  | [], _ :: _ => -1
  | _ :: _, [] => 1
  | a :: as, b :: bs =>
    if a < b then -1 else if b < a then 1 else compareCodes as bs

/-- UTF-16 code units of a character, the units JavaScript strings are made
of. -/
def utf16Units (c : Char) : List Nat :=
  if c.toNat < 65536 then [c.toNat]
  else [55296 + (c.toNat - 65536) / 1024, 56320 + (c.toNat - 65536) % 1024]

/-- UTF-16 code units of a string. -/
def utf16 (str : String) : List Nat :=
  str.data.flatMap utf16Units

/-- Order of Array.prototype.sort without a comparator, as render applies it to
the group names: by UTF-16 code units. -/
def keyLE (a b : String) : Prop :=
  compareCodes (utf16 a) (utf16 b) ≤ 0

instance keyLEDecidable : DecidableRel keyLE :=
  fun a b => inferInstanceAs (Decidable (compareCodes (utf16 a) (utf16 b) ≤ 0))

/-- Code of a letter with capitals A to Z folded onto a to z. -/
def foldCase (code : Nat) : Nat :=
  if 65 ≤ code ∧ code ≤ 90 then code + 32 else code

/-- Modelled from the spec: String.prototype.localeCompare is a function of the
browser, not of the repository; the spec gives the order it is used for as the
case-insensitive lexical order of the hostnames.  Three-way comparison of the
case-folded code units. -/
def caseInsensitiveCompare (a b : String) : Int :=
  compareCodes ((utf16 a).map foldCase) ((utf16 b).map foldCase)

/-- The comparator groupMachines passes to sort.  localeCompare is the
comparison of hostnames the browser provides; nowMs is the clock getStatusClass
reads. -/
def compareMachines (localeCompare : String → String → Int) (nowMs : Int) (a b : Machine) : Int :=
  let statusA := getStatusClass a nowMs
  let statusB := getStatusClass b nowMs
  if statusA = "offline" ∧ statusB ≠ "offline" then -1
  else if statusA ≠ "offline" ∧ statusB = "offline" then 1
  else if statusA = "warning" ∧ statusB = "online" then -1
  else if statusA = "online" ∧ statusB = "warning" then 1
  else localeCompare a.Hostname b.Hostname

/-- Position of a status in the display order: offline, warning, online. -/
def statusRank (status : String) : Nat :=
  if status = "offline" then 0 else if status = "warning" then 1 else 2

/-- The names a plain object inherits from Object.prototype; groups[name] is
not undefined for them although groups has no such key of its own. -/
def objectPrototypeKeys : List String :=
  ["constructor", "hasOwnProperty", "isPrototypeOf", "propertyIsEnumerable",
   "toLocaleString", "toString", "valueOf", "__proto__", "__defineGetter__",
   "__defineSetter__", "__lookupGetter__", "__lookupSetter__"]

/-- The expression m.group || (the literal default): the key a machine is filed
under. -/
def groupKey (m : Machine) : String :=
  if m.GroupName = "" then "default" else m.GroupName

/-- groups[group].push(m) for a key the object holds. -/
def pushToGroup : List (String × List Machine) → String → Machine → List (String × List Machine)
  | [], _, _ => []
  | g :: gs, k, m => if g.1 = k then (g.1, g.2 ++ [m]) :: gs else g :: pushToGroup gs k m

/-- Body of the forEach of groupMachines on the object groups, kept as the list
of its own keys with their arrays: a new array is created when groups[group] is
falsy; for an inherited name groups[group] is truthy, no array is created and
the call of push throws. -/
def addToGroup (groups : List (String × List Machine)) (m : Machine) :
    Except String (List (String × List Machine)) :=
  let group := groupKey m
  if groups.any (fun g => decide (g.1 = group)) then
    Except.ok (pushToGroup groups group m)
  else if group ∈ objectPrototypeKeys then
    Except.error "TypeError: groups[group].push is not a function"
  else
    Except.ok (groups ++ [(group, [m])])

/-- The forEach over the machines. -/
def collectGroups : List (String × List Machine) → List Machine →
    Except String (List (String × List Machine))
  | groups, [] => Except.ok groups
  | groups, m :: rest =>
    match addToGroup groups m with
    | Except.error e => Except.error e
    | Except.ok groups2 => collectGroups groups2 rest

/-- groupMachines(machines): file every machine under its key, then sort each
group with the comparator (sort is stable). -/
def groupMachines (localeCompare : String → String → Int) (nowMs : Int)
    (machines : List Machine) : Except String (List (String × List Machine)) :=
  match collectGroups [] machines with
  | Except.error e => Except.error e
  | Except.ok groups =>
    Except.ok (groups.map (fun g =>
      (g.1, g.2.insertionSort (fun a b => compareMachines localeCompare nowMs a b ≤ 0))))

/-- The groups in the order render emits them: Object.keys(groups).sort(). -/
def render (localeCompare : String → String → Int) (nowMs : Int) (machines : List Machine) :
    Except String (List (String × List Machine)) :=
  match groupMachines localeCompare nowMs machines with
  | Except.error e => Except.error e
  | Except.ok groups => Except.ok (groups.insertionSort (fun a b => keyLE a.1 b.1))

/-! ## Concrete traces -/

/-- Two hosts register on a fresh database, one minute apart. -/
def twoHosts : Storage :=
  (UpsertMachine (UpsertMachine (New 90) 1000 "a" "10.0.0.1" "prod" "none").2
    1060 "b" "10.0.0.2" "prod" "none").2

/-- A report of host a with the given address and CPU percent. -/
def reportA (ip : String) (cpu : Rat) : MetricPayload :=
  { Hostname := "a", IP := ip, GroupName := "prod", SwarmRole := "none", CPUPercent := cpu,
    MemoryPercent := 40, DiskPercent := 50, DockerRunning := 3, DockerStopped := 1 }

/-- Host a has reported twice to a fresh database, one minute apart. -/
def twoReports : Storage :=
  (SaveMetrics (SaveMetrics (New 90) 1000 (reportA "10.0.0.1" 10)).2 1060
    (reportA "10.0.0.1" 20)).2

/-- Host a is registered on a fresh database and has not reported a sample. -/
def noSamples : Storage :=
  (UpsertMachine (New 90) 1000 "a" "10.0.0.1" "prod" "none").2

/-- Host a has sent one report to a fresh database, all five values zero. -/
def zeroSample : Storage :=
  (SaveMetrics (New 90) 1000
    { Hostname := "a", IP := "10.0.0.1", GroupName := "prod", SwarmRole := "none",
      CPUPercent := 0, MemoryPercent := 0, DiskPercent := 0, DockerRunning := 0,
      DockerStopped := 0 }).2

/-- Host a has reported twice within the same second: CPU 10, then CPU 90. -/
def tiedReports : Storage :=
  (SaveMetrics (SaveMetrics (New 90) 1000 (reportA "10.0.0.1" 10)).2 1000
    (reportA "10.0.0.1" 90)).2

/-- Values of the samples of the retention scenario. -/
def someValues : Metrics :=
  { CPUPercent := 10, MemoryPercent := 40, DiskPercent := 50, DockerRunning := 3,
    DockerStopped := 1 }

/-- One machine with four samples, written 200, 100, 50 and 10 days before the
instant agedNow; retention is 90 days. -/
def agedStore : Storage :=
  run (New 90)
    [Op.upsertMachine 1000 "a" "10.0.0.1" "prod" "none",
     Op.insertMetrics 1000 1 someValues,
     Op.insertMetrics (1000 + 100 * 86400) 1 someValues,
     Op.insertMetrics (1000 + 150 * 86400) 1 someValues,
     Op.insertMetrics (1000 + 190 * 86400) 1 someValues]

/-- The instant of the pruning pass in the retention scenario. -/
def agedNow : Int := 1000 + 200 * 86400

/-- Values of a sample with the given CPU percent. -/
def valuesWithCPU (cpu : Rat) : Metrics :=
  { CPUPercent := cpu, MemoryPercent := 40, DiskPercent := 50, DockerRunning := 3,
    DockerStopped := 1 }

/-- One machine with three samples, written 48, 25 and 1 hours before the
instant historyNow. -/
def historyStore : Storage :=
  run (New 90)
    [Op.upsertMachine 1000 "a" "10.0.0.1" "prod" "none",
     Op.insertMetrics 1000 1 (valuesWithCPU 10),
     Op.insertMetrics (1000 + 23 * 3600) 1 (valuesWithCPU 20),
     Op.insertMetrics (1000 + 47 * 3600) 1 (valuesWithCPU 30)]

/-- The instant of the history query on historyStore. -/
def historyNow : Int := 1000 + 48 * 3600

/-- One machine with one sample, written exactly 24 hours before the instant
boundaryNow. -/
def boundaryStore : Storage :=
  run (New 90)
    [Op.upsertMachine 1000 "a" "10.0.0.1" "prod" "none",
     Op.insertMetrics 1000 1 (valuesWithCPU 10)]

/-- The instant of the history query on boundaryStore. -/
def boundaryNow : Int := 1000 + 24 * 3600

/-- Host a has sent one report with CPU 90 to a fresh database. -/
def hotHost : Storage :=
  (SaveMetrics (New 90) 1000 (reportA "10.0.0.1" 90)).2

/-- The entry of host a in the machine list of hotHost, read five minutes after
its report. -/
def hotMachine : Machine :=
  { ID := 1, Hostname := "a", IP := "10.0.0.1", GroupName := "prod", SwarmRole := "none",
    FirstSeen := 1000, LastSeen := 1000, IsOnline := true,
    Metrics := some (valuesWithCPU 90) }

/-- Host a has registered on a fresh database with an empty group. -/
def emptyGroupStore : Storage :=
  (UpsertMachine (New 90) 1000 "a" "10.0.0.1" "" "none").2

/-- The entry of host a in the machine list of emptyGroupStore. -/
def emptyGroupMachine : Machine :=
  { ID := 1, Hostname := "a", IP := "10.0.0.1", GroupName := "", SwarmRole := "none",
    FirstSeen := 1000, LastSeen := 1000, IsOnline := true,
    Metrics := some { CPUPercent := 0, MemoryPercent := 0, DiskPercent := 0,
                      DockerRunning := 0, DockerStopped := 0 } }

/-- A machine entry of group prod with the given id, hostname, last_seen and CPU
percent. -/
def prodMachine (id : Int) (hostname : String) (lastSeen : Int) (cpu : Rat) : Machine :=
  { ID := id, Hostname := hostname, IP := "10.0.0.1", GroupName := "prod",
    SwarmRole := "none", FirstSeen := 1000, LastSeen := lastSeen, IsOnline := true,
    Metrics := some (valuesWithCPU cpu) }

/-- A machine list as the dashboard receives it: web-2 healthy, DB-1 above the
warning threshold, web-1 healthy, cache-1 silent for hours, and a host with an
empty group. -/
def fleet : List Machine :=
  [prodMachine 1 "web-2" 20000 10, prodMachine 2 "DB-1" 20000 90,
   prodMachine 3 "web-1" 20000 20, prodMachine 4 "cache-1" 1000 10, emptyGroupMachine]

/-! ## Lemmas on the statements -/

theorem upsertMachine_db (s : Storage) (now : Int) (h ip g r : String) :
    (UpsertMachine s now h ip g r).2.db = execUpsert s.db now h ip g r := by
  unfold UpsertMachine
  simp only
  split
  · rfl
  · split <;> rfl

theorem upsertMachine_retention (s : Storage) (now : Int) (h ip g r : String) :
    (UpsertMachine s now h ip g r).2.retentionDays = s.retentionDays := by
  unfold UpsertMachine
  simp only
  split
  · rfl
  · split <;> rfl

theorem execUpsert_machines_new (db : DB) (now : Int) (h ip g r : String)
    (hnew : ∀ m ∈ db.machines, m.hostname ≠ h) :
    (execUpsert db now h ip g r).machines = db.machines ++
      [{ id := newRowid db.seq_machines (db.machines.map (·.id)), hostname := h, ip := ip,
         group_name := g, swarm_role := r, first_seen := now, last_seen := now }] := by
  have hany : db.machines.any (fun m => decide (m.hostname = h)) = false := by
    rw [List.any_eq_false]
    intro m hm
    simpa using hnew m hm
  simp [execUpsert, hany]

theorem execUpsert_machines_old (db : DB) (now : Int) (h ip g r : String)
    (hold : ∃ m ∈ db.machines, m.hostname = h) :
    (execUpsert db now h ip g r).machines = db.machines.map (fun m =>
      if m.hostname = h then upsertUpdateRow m now ip g r else m) := by
  have hany : db.machines.any (fun m => decide (m.hostname = h)) = true := by
    rw [List.any_eq_true]
    obtain ⟨m, hm, hh⟩ := hold
    exact ⟨m, hm, by simpa using hh⟩
  simp [execUpsert, hany]

theorem filter_hostname_update_absent (l : List MachineRow) (now : Int) (h ip g r : String)
    (hnew : ∀ m ∈ l, m.hostname ≠ h) :
    (l.map (fun m => if m.hostname = h then upsertUpdateRow m now ip g r else m)).filter
      (fun m => decide (m.hostname = h)) = [] := by
  induction l with
  | nil => rfl
  | cons a l ih =>
    have ha : a.hostname ≠ h := hnew a (List.mem_cons_self a l)
    have hl : ∀ m ∈ l, m.hostname ≠ h := fun m hm => hnew m (List.mem_cons_of_mem a hm)
    simp [ha, ih hl]

theorem insertMetrics_error_unchanged (s : Storage) (now : Int) (machineID : Int) (m : Metrics)
    (e : String) (herr : (InsertMetrics s now machineID m).1 = Except.error e) :
    (InsertMetrics s now machineID m).2 = s := by
  revert herr
  unfold InsertMetrics
  split
  · intro h; simp at h
  · intro _; rfl

theorem execUpsert_hostnames_nodup (db : DB) (now : Int) (h ip g r : String)
    (hnd : (db.machines.map (·.hostname)).Nodup) :
    ((execUpsert db now h ip g r).machines.map (·.hostname)).Nodup := by
  by_cases hold : ∃ m ∈ db.machines, m.hostname = h
  · rw [execUpsert_machines_old db now h ip g r hold, List.map_map]
    have hfun : ((fun m : MachineRow => m.hostname) ∘ fun m : MachineRow =>
        if m.hostname = h then upsertUpdateRow m now ip g r else m) = fun m => m.hostname := by
      funext m
      by_cases hm : m.hostname = h <;> simp [hm, upsertUpdateRow]
    rw [hfun]
    exact hnd
  · have hnew : ∀ m ∈ db.machines, m.hostname ≠ h := fun m hm hh => hold ⟨m, hm, hh⟩
    rw [execUpsert_machines_new db now h ip g r hnew, List.map_append]
    refine List.Nodup.append hnd (by simp) ?_
    intro x hx hx2
    simp only [List.map_cons, List.map_nil, List.mem_singleton] at hx2
    obtain ⟨m, hm, hmx⟩ := List.mem_map.mp hx
    exact hnew m hm (hmx.trans hx2)

theorem insertMetrics_machines (s : Storage) (now : Int) (machineID : Int) (m : Metrics) :
    (InsertMetrics s now machineID m).2.db.machines = s.db.machines := by
  unfold InsertMetrics execInsertMetrics
  split
  · rename_i db1 heq
    split at heq
    · simp only [Option.some.injEq] at heq
      subst heq
      rfl
    · simp at heq
  · rfl

theorem saveMetrics_machines (s : Storage) (now : Int) (p : MetricPayload) :
    (SaveMetrics s now p).2.db.machines =
      (execUpsert s.db now p.Hostname p.IP p.GroupName p.SwarmRole).machines := by
  rw [← upsertMachine_db]
  unfold SaveMetrics
  generalize UpsertMachine s now p.Hostname p.IP p.GroupName p.SwarmRole = u
  obtain ⟨res, s1⟩ := u
  cases res with
  | error err => rfl
  | ok machineID =>
    simp only
    have hins := insertMetrics_machines s1 now machineID
      { CPUPercent := p.CPUPercent, MemoryPercent := p.MemoryPercent,
        DiskPercent := p.DiskPercent, DockerRunning := p.DockerRunning,
        DockerStopped := p.DockerStopped }
    revert hins
    generalize InsertMetrics s1 now machineID _ = v
    obtain ⟨res2, s2⟩ := v
    cases res2 <;> exact fun hins => hins

theorem step_hostnames_nodup (s : Storage) (op : Op)
    (hnd : (s.db.machines.map (·.hostname)).Nodup) :
    ((step s op).db.machines.map (·.hostname)).Nodup := by
  cases op with
  | upsertMachine now h ip g r =>
    show (((UpsertMachine s now h ip g r).2.db.machines).map (·.hostname)).Nodup
    rw [upsertMachine_db]
    exact execUpsert_hostnames_nodup s.db now h ip g r hnd
  | insertMetrics now id m =>
    show (((InsertMetrics s now id m).2.db.machines).map (·.hostname)).Nodup
    rw [insertMetrics_machines]
    exact hnd
  | saveMetrics now p =>
    show (((SaveMetrics s now p).2.db.machines).map (·.hostname)).Nodup
    rw [saveMetrics_machines]
    exact execUpsert_hostnames_nodup s.db now _ _ _ _ hnd
  | cleanupOldMetrics now => exact hnd
  | reconnect => exact hnd

theorem run_hostnames_nodup (ops : List Op) (s : Storage)
    (hnd : (s.db.machines.map (·.hostname)).Nodup) :
    ((run s ops).db.machines.map (·.hostname)).Nodup := by
  induction ops generalizing s with
  | nil => exact hnd
  | cons op ops ih => exact ih (step s op) (step_hostnames_nodup s op hnd)

/-! ## Lemmas on the latest-sample queries -/

theorem scanMetrics_some (r : MetricRow) : scanMetrics (some r) = r.values := rfl

theorem comesBefore_irrefl (r : MetricRow) : comesBefore r r = false := by
  simp [comesBefore]

theorem comesBefore_asymm (a b : MetricRow) (h : comesBefore a b = true) :
    comesBefore b a = false := by
  simp only [comesBefore, Bool.or_eq_true, Bool.and_eq_true, decide_eq_true_eq] at h
  simp only [comesBefore, Bool.or_eq_false_iff, Bool.and_eq_false_imp, decide_eq_false_iff_not,
    decide_eq_true_eq]
  omega

theorem mem_metRn1 (metrics : List MetricRow) (r : MetricRow) :
    r ∈ metRn1 metrics ↔
      r ∈ metrics ∧ ∀ x ∈ metrics, x.machine_id = r.machine_id → comesBefore x r = false := by
  unfold metRn1 rowNumber
  rw [List.mem_filter]
  refine and_congr_right (fun _ => ?_)
  simp only [decide_eq_true_eq, add_left_eq_self, List.length_eq_zero, List.filter_eq_nil_iff,
    Bool.and_eq_true, not_and, Bool.not_eq_true]

theorem metRn1_top (metrics : List MetricRow) (r : MetricRow) (hr : r ∈ metrics)
    (htop : ∀ x ∈ metrics, x.machine_id = r.machine_id → x ≠ r → comesBefore r x = true) :
    r ∈ metRn1 metrics ∧ ∀ x ∈ metRn1 metrics, x.machine_id = r.machine_id → x = r := by
  constructor
  · rw [mem_metRn1]
    refine ⟨hr, fun x hx hxm => ?_⟩
    by_cases hxr : x = r
    · rw [hxr]; exact comesBefore_irrefl r
    · exact comesBefore_asymm r x (htop x hx hxm hxr)
  · intro x hx hxm
    by_contra hxr
    have h1 := htop x ((mem_metRn1 metrics x).mp hx).1 hxm hxr
    have h2 := ((mem_metRn1 metrics x).mp hx).2 r hr hxm.symm
    rw [h1] at h2
    exact Bool.noConfusion h2

theorem mem_leftJoin (m m2 : MachineRow) (o : Option MetricRow) (met : List MetricRow) :
    (m2, o) ∈ leftJoin m met ↔
      m2 = m ∧ ((o = none ∧ ∀ r ∈ met, m.id ≠ r.machine_id) ∨
        ∃ r ∈ met, m.id = r.machine_id ∧ o = some r) := by
  unfold leftJoin
  split
  · rename_i heq
    rw [List.filter_eq_nil_iff] at heq
    simp only [List.mem_singleton, Prod.mk.injEq]
    constructor
    · rintro ⟨h1, h2⟩
      exact ⟨h1, Or.inl ⟨h2, fun r hr hid => heq r hr (by simpa using hid)⟩⟩
    · rintro ⟨h1, h2 | ⟨r, hr, hid, _⟩⟩
      · exact ⟨h1, h2.1⟩
      · exact absurd (by simpa using hid) (heq r hr)
  · rename_i hne
    simp only [List.mem_map, List.mem_filter, decide_eq_true_eq, Prod.mk.injEq]
    constructor
    · rintro ⟨r, ⟨hr, hid⟩, h1, h2⟩
      exact ⟨h1.symm, Or.inr ⟨r, hr, hid, h2.symm⟩⟩
    · rintro ⟨h1, ⟨_, h2⟩ | ⟨r, hr, hid, ho⟩⟩
      · exfalso
        apply hne
        rw [List.filter_eq_nil_iff]
        intro r hr
        simpa using h2 r hr
      · exact ⟨r, ⟨hr, hid⟩, h1.symm, ho.symm⟩

theorem mem_getMachinesWithMetrics (s : Storage) (nowNs : Int) :
    ∃ l, GetMachinesWithMetrics s nowNs = Except.ok l ∧
      ∀ e, e ∈ l ↔ ∃ m ∈ s.db.machines, ∃ o,
        (m, o) ∈ leftJoin m (metRn1 s.db.metrics) ∧ e = scanMachine nowNs m o := by
  refine ⟨_, rfl, fun e => ?_⟩
  rw [List.mem_map]
  constructor
  · rintro ⟨⟨m2, o⟩, hrow, he⟩
    rw [(List.perm_insertionSort _ _).mem_iff, List.mem_flatMap] at hrow
    obtain ⟨m, hm, hj⟩ := hrow
    have hm2 : m2 = m := ((mem_leftJoin m m2 o _).mp hj).1
    subst hm2
    exact ⟨m2, hm, o, hj, he.symm⟩
  · rintro ⟨m, hm, o, hj, he⟩
    refine ⟨(m, o), ?_, he.symm⟩
    rw [(List.perm_insertionSort _ _).mem_iff, List.mem_flatMap]
    exact ⟨m, hm, hj⟩

theorem exists_max_collected (l : List MetricRow) (hne : l ≠ []) :
    ∃ r ∈ l, ∀ x ∈ l, x.collected_at ≤ r.collected_at := by
  induction l with
  | nil => exact absurd rfl hne
  | cons a l ih =>
    by_cases hl : l = []
    · subst hl
      exact ⟨a, List.mem_singleton_self a, fun x hx => by simp at hx; rw [hx]⟩
    · obtain ⟨r, hr, hmax⟩ := ih hl
      by_cases har : a.collected_at ≤ r.collected_at
      · refine ⟨r, List.mem_cons_of_mem a hr, fun x hx => ?_⟩
        rcases List.mem_cons.mp hx with hx | hx
        · rw [hx]; exact har
        · exact hmax x hx
      · refine ⟨a, List.mem_cons_self a l, fun x hx => ?_⟩
        rcases List.mem_cons.mp hx with hx | hx
        · rw [hx]
        · have := hmax x hx
          omega

theorem entries_of_selected (s : Storage) (nowNs : Int) (m : MachineRow) (r : MetricRow)
    (hm : m ∈ s.db.machines) (hr : r ∈ s.db.metrics) (hrm : r.machine_id = m.id)
    (htop : ∀ x ∈ s.db.metrics, x.machine_id = r.machine_id → x ≠ r → comesBefore r x = true) :
    ∃ l, GetMachinesWithMetrics s nowNs = Except.ok l ∧ scanMachine nowNs m (some r) ∈ l ∧
      ∀ e ∈ l, e.ID = m.id → e.Metrics = some r.values := by
  obtain ⟨l, hl, hmem⟩ := mem_getMachinesWithMetrics s nowNs
  obtain ⟨hsel, huniq⟩ := metRn1_top s.db.metrics r hr htop
  refine ⟨l, hl, ?_, ?_⟩
  · rw [hmem]
    exact ⟨m, hm, some r, (mem_leftJoin m m _ _).mpr ⟨rfl, Or.inr ⟨r, hsel, hrm.symm, rfl⟩⟩, rfl⟩
  · intro e he hid
    obtain ⟨m2, _, o, hj, heq⟩ := (hmem e).mp he
    have hid2 : m2.id = m.id := by rw [heq] at hid; exact hid
    rcases ((mem_leftJoin m2 m2 o _).mp hj).2 with ⟨_, hno⟩ | ⟨x, hx, hxid, ho⟩
    · exact absurd (hid2.trans hrm.symm) (hno r hsel)
    · have hxr : x = r := huniq x hx (by rw [← hxid, hid2, hrm])
      rw [heq, ho, hxr]
      rfl

theorem firstByCollectedDesc_mem (l : List MetricRow) (b : MetricRow)
    (h : firstByCollectedDesc l = some b) : b ∈ l := by
  induction l generalizing b with
  | nil => simp [firstByCollectedDesc] at h
  | cons a l ih =>
    unfold firstByCollectedDesc at h
    split at h
    · simp only [Option.some.injEq] at h
      rw [← h]
      exact List.mem_cons_self a l
    · rename_i c hc
      split at h
      · simp only [Option.some.injEq] at h
        rw [← h]
        exact List.mem_cons_of_mem a (ih c hc)
      · simp only [Option.some.injEq] at h
        rw [← h]
        exact List.mem_cons_self a l

theorem firstByCollectedDesc_top (l : List MetricRow) (r : MetricRow) (hr : r ∈ l)
    (htop : ∀ x ∈ l, x ≠ r → comesBefore r x = true) : firstByCollectedDesc l = some r := by
  induction l with
  | nil => simp at hr
  | cons a l ih =>
    have htop2 : ∀ x ∈ l, x ≠ r → comesBefore r x = true :=
      fun x hx => htop x (List.mem_cons_of_mem a hx)
    unfold firstByCollectedDesc
    by_cases hrl : r ∈ l
    · rw [ih hrl htop2]
      simp only
      by_cases har : a = r
      · rw [har, comesBefore_irrefl]
        simp
      · rw [htop a (List.mem_cons_self a l) har]
        simp
    · have har : a = r := by
        rcases List.mem_cons.mp hr with h | h
        · exact h.symm
        · exact absurd h hrl
      split
      · rw [har]
      · rename_i c hc
        have hcl : c ∈ l := firstByCollectedDesc_mem l c hc
        have hcr : c ≠ r := fun h => hrl (h ▸ hcl)
        have h1 := comesBefore_asymm r c (htop2 c hcl hcr)
        rw [har, h1]
        simp

theorem metLimit1_mem (metrics : List MetricRow) (id : Int) (r : MetricRow)
    (h : metLimit1 metrics id = some r) : r ∈ metrics ∧ r.machine_id = id := by
  have := firstByCollectedDesc_mem _ r h
  simpa using this

theorem leftJoin_limit1 (m : MachineRow) (metrics : List MetricRow) :
    leftJoin m (metLimit1 metrics m.id).toList = [(m, metLimit1 metrics m.id)] := by
  cases h : metLimit1 metrics m.id with
  | none => rfl
  | some r =>
    have hid := (metLimit1_mem metrics m.id r h).2
    simp [leftJoin, hid]

theorem getMachineByID_eq (s : Storage) (nowNs : Int) (id : Int) :
    GetMachineByID s nowNs id = Except.ok
      ((s.db.machines.find? (fun m => decide (m.id = id))).map
        (fun m => scanMachine nowNs m (metLimit1 s.db.metrics id))) := by
  unfold GetMachineByID
  simp only
  generalize s.db.machines = ms
  induction ms with
  | nil => rfl
  | cons a ms ih =>
    by_cases ha : a.id = id
    · subst ha
      simp [List.filter_cons, List.flatMap_cons, leftJoin_limit1]
    · simp only [List.filter_cons, ha, decide_False, Bool.false_eq_true, ↓reduceIte,
        List.find?_cons]
      exact ih

theorem find_machine_id (ms : List MachineRow) (m : MachineRow) (hm : m ∈ ms) :
    ∃ m0 ∈ ms, m0.id = m.id ∧ ms.find? (fun x => decide (x.id = m.id)) = some m0 := by
  cases h : ms.find? (fun x => decide (x.id = m.id)) with
  | none =>
    rw [List.find?_eq_none] at h
    exact absurd (by simp) (h m hm)
  | some m0 =>
    have h1 := List.find?_some h
    exact ⟨m0, List.mem_of_find?_eq_some h, by simpa using h1, rfl⟩

theorem cleanupOldMetrics_machines (s : Storage) (now : Int) :
    (CleanupOldMetrics s now).2.db.machines = s.db.machines := rfl

theorem byID_of_selected (s : Storage) (nowNs : Int) (m : MachineRow) (r : MetricRow)
    (hm : m ∈ s.db.machines) (hr : r ∈ s.db.metrics) (hrm : r.machine_id = m.id)
    (htop : ∀ x ∈ s.db.metrics, x.machine_id = r.machine_id → x ≠ r → comesBefore r x = true) :
    ∃ e, GetMachineByID s nowNs m.id = Except.ok (some e) ∧ e.ID = m.id ∧
      e.Metrics = some r.values := by
  obtain ⟨m0, _, hid, hfind⟩ := find_machine_id s.db.machines m hm
  have hlim : metLimit1 s.db.metrics m.id = some r := by
    unfold metLimit1
    apply firstByCollectedDesc_top
    · simp [hr, hrm]
    · intro x hx hxr
      simp only [List.mem_filter, decide_eq_true_eq] at hx
      exact htop x hx.1 (hx.2.trans hrm.symm) hxr
  refine ⟨scanMachine nowNs m0 (some r), ?_, hid, rfl⟩
  rw [getMachineByID_eq, hfind, hlim]
  rfl

theorem mem_innerJoinRn1 (db : DB) (p : MachineRow × MetricRow) :
    p ∈ innerJoinRn1 db ↔ p.1 ∈ db.machines ∧ p.2 ∈ metRn1 db.metrics ∧
      p.1.id = p.2.machine_id := by
  obtain ⟨m, r⟩ := p
  simp only [innerJoinRn1, List.mem_flatMap, List.mem_map, List.mem_filter, decide_eq_true_eq,
    Prod.mk.injEq]
  constructor
  · rintro ⟨m2, hm2, r2, ⟨hr2, hid⟩, h1, h2⟩
    subst h1 h2
    exact ⟨hm2, hr2, hid⟩
  · rintro ⟨hm, hr, hid⟩
    exact ⟨m, hm, r, ⟨hr, hid⟩, rfl, rfl⟩

theorem stats_of_selected (s : Storage) (m : MachineRow) (r : MetricRow)
    (hm : m ∈ s.db.machines) (hr : r ∈ s.db.metrics) (hrm : r.machine_id = m.id)
    (htop : ∀ x ∈ s.db.metrics, x.machine_id = r.machine_id → x ≠ r → comesBefore r x = true) :
    (m, r) ∈ innerJoinRn1 s.db ∧ ∀ p ∈ innerJoinRn1 s.db, p.1.id = m.id → p.2 = r := by
  obtain ⟨hsel, huniq⟩ := metRn1_top s.db.metrics r hr htop
  constructor
  · rw [mem_innerJoinRn1]
    exact ⟨hm, hsel, hrm.symm⟩
  · intro p hp hid
    rw [mem_innerJoinRn1] at hp
    exact huniq p.2 hp.2.1 (by rw [← hp.2.2, hid, hrm])

theorem olderThan_checked (now amount unitSeconds : Int) (r : MetricRow)
    (hnow : validDate now = true) (hunit : 0 ≤ unitSeconds)
    (hr : validDate r.collected_at = true) :
    olderThan (datetimeChecked now amount unitSeconds) r =
      olderThan (datetimeMinus now amount unitSeconds) r := by
  unfold datetimeChecked datetimeMinus
  by_cases ha : amount < 0
  · simp [ha]
  · simp only [ha, if_false, hnow, Bool.true_and]
    by_cases hc : validDate (now - amount * unitSeconds) = true
    · simp [hc]
    · simp only [hc, olderThan]
      simp only [validDate, decide_eq_true_eq] at hc hr hnow
      have hprod : 0 ≤ amount * unitSeconds := Int.mul_nonneg (not_lt.mp ha) hunit
      have hlt : ¬ r.collected_at < now - amount * unitSeconds := by omega
      simp [hlt]

/-! ## Lemmas on the history query -/

theorem historyOrder_total (a b : MetricRow) : historyOrder a b ∨ historyOrder b a := by
  unfold historyOrder
  cases h : comesBefore b a with
  | false => exact Or.inl rfl
  | true => exact Or.inr (comesBefore_asymm b a h)

theorem historyOrder_trans (a b c : MetricRow) (h1 : historyOrder a b) (h2 : historyOrder b c) :
    historyOrder a c := by
  unfold historyOrder at *
  simp only [comesBefore, Bool.or_eq_false_iff, Bool.and_eq_false_imp, decide_eq_false_iff_not,
    decide_eq_true_eq] at *
  omega

theorem historyOrder_collected (a b : MetricRow) (h : historyOrder a b) :
    b.collected_at ≤ a.collected_at := by
  unfold historyOrder at h
  simp only [comesBefore, Bool.or_eq_false_iff, Bool.and_eq_false_imp, decide_eq_false_iff_not,
    decide_eq_true_eq] at h
  omega

theorem find_machine_unique (ms : List MachineRow) (m : MachineRow) (hm : m ∈ ms)
    (hids : (ms.map (·.id)).Nodup) :
    ms.find? (fun x => decide (x.id = m.id)) = some m := by
  obtain ⟨m0, hm0, hid, hfind⟩ := find_machine_id ms m hm
  rw [hfind, List.inj_on_of_nodup_map hids hm0 hm hid]

/-! ## Lemmas on the dashboard status -/

theorem diffMinutes_gt (x : Int) : ((x : Rat) / 1000 / 60 > 70) ↔ x > 4200000 := by
  rw [gt_iff_lt, gt_iff_lt, div_div, lt_div_iff₀ (by norm_num : (0 : Rat) < 1000 * 60)]
  constructor
  · intro h
    have h2 : ((4200000 : Int) : Rat) < (x : Rat) := by
      push_cast
      linarith
    exact_mod_cast h2
  · intro h
    have h2 : ((4200000 : Int) : Rat) < (x : Rat) := by exact_mod_cast h
    push_cast at h2
    linarith

theorem getStatusClass_stale (machine : Machine) (nowMs : Int)
    (h : nowMs - machine.LastSeen * 1000 > 4200000) :
    getStatusClass machine nowMs = "offline" := by
  unfold getStatusClass ONLINE_THRESHOLD_MINUTES
  simp only
  rw [if_pos ((diffMinutes_gt _).mpr h)]

theorem getStatusClass_fresh (machine : Machine) (nowMs : Int)
    (h : ¬ nowMs - machine.LastSeen * 1000 > 4200000) :
    getStatusClass machine nowMs =
      match machine.Metrics with
      | some m =>
        if m.CPUPercent > 85 ∨ m.MemoryPercent > 85 ∨ m.DiskPercent > 85 then "warning"
        else "online"
      | none => "online" := by
  unfold getStatusClass ONLINE_THRESHOLD_MINUTES WARNING_THRESHOLD
  simp only
  rw [if_neg (fun hgt => h ((diffMinutes_gt _).mp hgt))]

theorem getStatusClass_fresh_ne_offline (machine : Machine) (nowMs : Int)
    (h : ¬ nowMs - machine.LastSeen * 1000 > 4200000) :
    getStatusClass machine nowMs = "online" ∨ getStatusClass machine nowMs = "warning" := by
  rw [getStatusClass_fresh machine nowMs h]
  cases machine.Metrics with
  | none => exact Or.inl rfl
  | some m =>
    simp only
    split
    · exact Or.inr rfl
    · exact Or.inl rfl

theorem getStatusClass_fresh_not_offline (machine : Machine) (nowMs : Int)
    (h : ¬ nowMs - machine.LastSeen * 1000 > 4200000) :
    getStatusClass machine nowMs ≠ "offline" := by
  rcases getStatusClass_fresh_ne_offline machine nowMs h with h1 | h1 <;> rw [h1] <;> decide

theorem dedup_length_congr (l1 l2 : List Int) (h : ∀ x, x ∈ l1 ↔ x ∈ l2) :
    l1.dedup.length = l2.dedup.length := by
  rw [← List.card_toFinset, ← List.card_toFinset]
  congr 1
  ext x
  simp only [List.mem_toFinset]
  exact h x

theorem execUpsert_metrics (db : DB) (now : Int) (h ip g r : String) :
    (execUpsert db now h ip g r).metrics = db.metrics := by
  unfold execUpsert
  simp only
  split <;> rfl

theorem insertMetrics_ok_metrics (s : Storage) (now : Int) (machineID : Int) (m : Metrics)
    (hok : (InsertMetrics s now machineID m).1 = Except.ok ()) :
    (InsertMetrics s now machineID m).2.db.metrics = s.db.metrics ++
      [{ id := newRowid s.db.seq_metrics (s.db.metrics.map (·.id)), machine_id := machineID,
         collected_at := now, cpu_percent := m.CPUPercent, memory_percent := m.MemoryPercent,
         disk_percent := m.DiskPercent, docker_running := m.DockerRunning,
         docker_stopped := m.DockerStopped }] := by
  revert hok
  unfold InsertMetrics execInsertMetrics
  by_cases hfk : s.db.machines.any (fun r => decide (r.id = machineID)) = true
  · simp only [hfk, if_true]
    intro _
    trivial
  · simp only [hfk]
    intro h
    simp at h

/-! ## Primary keys in reachable stores -/

theorem foldl_max_bounds (ids : List Int) (acc : Int) :
    acc ≤ ids.foldl max acc ∧ ∀ i ∈ ids, i ≤ ids.foldl max acc := by
  induction ids generalizing acc with
  | nil => exact ⟨le_refl acc, fun i hi => by simp at hi⟩
  | cons a ids ih =>
    obtain ⟨h1, h2⟩ := ih (max acc a)
    refine ⟨le_trans (le_max_left acc a) h1, fun i hi => ?_⟩
    rcases List.mem_cons.mp hi with hi | hi
    · rw [hi]
      exact le_trans (le_max_right acc a) h1
    · exact h2 i hi

theorem newRowid_fresh (seq : Int) (ids : List Int) : newRowid seq ids ∉ ids := by
  intro h
  have h1 := (foldl_max_bounds ids 0).2 _ h
  have h2 := le_max_right seq (maxRowid ids)
  unfold newRowid maxRowid at *
  omega

theorem execUpsert_ids_nodup (db : DB) (now : Int) (h ip g r : String)
    (hnd : (db.machines.map (·.id)).Nodup) :
    ((execUpsert db now h ip g r).machines.map (·.id)).Nodup := by
  by_cases hold : ∃ m ∈ db.machines, m.hostname = h
  · rw [execUpsert_machines_old db now h ip g r hold, List.map_map]
    have hfun : ((fun m : MachineRow => m.id) ∘ fun m : MachineRow =>
        if m.hostname = h then upsertUpdateRow m now ip g r else m) = fun m => m.id := by
      funext m
      by_cases hm : m.hostname = h <;> simp [hm, upsertUpdateRow]
    rw [hfun]
    exact hnd
  · have hnew : ∀ m ∈ db.machines, m.hostname ≠ h := fun m hm hh => hold ⟨m, hm, hh⟩
    rw [execUpsert_machines_new db now h ip g r hnew, List.map_append]
    refine List.Nodup.append hnd (by simp) ?_
    intro x hx hx2
    simp only [List.map_cons, List.map_nil, List.mem_singleton] at hx2
    rw [hx2] at hx
    exact newRowid_fresh _ _ hx

theorem insertMetrics_ids_nodup (s : Storage) (now : Int) (machineID : Int) (m : Metrics)
    (hnd : (s.db.metrics.map (·.id)).Nodup) :
    ((InsertMetrics s now machineID m).2.db.metrics.map (·.id)).Nodup := by
  cases hres : (InsertMetrics s now machineID m).1 with
  | error e =>
    rw [insertMetrics_error_unchanged s now machineID m e hres]
    exact hnd
  | ok u =>
    rw [insertMetrics_ok_metrics s now machineID m hres, List.map_append]
    refine List.Nodup.append hnd (by simp) ?_
    intro x hx hx2
    simp only [List.map_cons, List.map_nil, List.mem_singleton] at hx2
    rw [hx2] at hx
    exact newRowid_fresh _ _ hx

theorem insertMetrics_retention (s : Storage) (now : Int) (machineID : Int) (m : Metrics) :
    (InsertMetrics s now machineID m).2.retentionDays = s.retentionDays := by
  unfold InsertMetrics
  split <;> rfl

theorem saveMetrics_state (s : Storage) (now : Int) (p : MetricPayload) :
    (SaveMetrics s now p).2 = (UpsertMachine s now p.Hostname p.IP p.GroupName p.SwarmRole).2 ∨
    ∃ id m, (SaveMetrics s now p).2 =
      (InsertMetrics (UpsertMachine s now p.Hostname p.IP p.GroupName p.SwarmRole).2
        now id m).2 := by
  unfold SaveMetrics
  generalize UpsertMachine s now p.Hostname p.IP p.GroupName p.SwarmRole = u
  obtain ⟨res, s1⟩ := u
  cases res with
  | error err => exact Or.inl rfl
  | ok machineID =>
    right
    refine ⟨machineID, ⟨p.CPUPercent, p.MemoryPercent, p.DiskPercent, p.DockerRunning,
      p.DockerStopped⟩, ?_⟩
    simp only
    generalize InsertMetrics s1 now machineID _ = v
    obtain ⟨res2, s2⟩ := v
    cases res2 <;> rfl

/-- Both primary keys hold: machine ids and sample ids are pairwise distinct. -/
theorem step_keys (s : Storage) (op : Op)
    (hk : (s.db.machines.map (·.id)).Nodup ∧ (s.db.metrics.map (·.id)).Nodup) :
    ((step s op).db.machines.map (·.id)).Nodup ∧ ((step s op).db.metrics.map (·.id)).Nodup := by
  have hup : ∀ now h ip g r,
      ((UpsertMachine s now h ip g r).2.db.machines.map (·.id)).Nodup ∧
      ((UpsertMachine s now h ip g r).2.db.metrics.map (·.id)).Nodup := by
    intro now h ip g r
    rw [upsertMachine_db, execUpsert_metrics]
    exact ⟨execUpsert_ids_nodup s.db now h ip g r hk.1, hk.2⟩
  cases op with
  | upsertMachine now h ip g r => exact hup now h ip g r
  | insertMetrics now id m =>
    show ((InsertMetrics s now id m).2.db.machines.map (·.id)).Nodup ∧
      ((InsertMetrics s now id m).2.db.metrics.map (·.id)).Nodup
    rw [insertMetrics_machines]
    exact ⟨hk.1, insertMetrics_ids_nodup s now id m hk.2⟩
  | saveMetrics now p =>
    show ((SaveMetrics s now p).2.db.machines.map (·.id)).Nodup ∧
      ((SaveMetrics s now p).2.db.metrics.map (·.id)).Nodup
    rcases saveMetrics_state s now p with h | ⟨id, m, h⟩
    · rw [h]
      exact hup now _ _ _ _
    · rw [h, insertMetrics_machines]
      exact ⟨(hup now _ _ _ _).1, insertMetrics_ids_nodup _ now id m (hup now _ _ _ _).2⟩
  | cleanupOldMetrics now =>
    exact ⟨hk.1, hk.2.sublist ((List.filter_sublist _).map _)⟩
  | reconnect => exact hk

theorem run_keys (ops : List Op) (s : Storage)
    (hk : (s.db.machines.map (·.id)).Nodup ∧ (s.db.metrics.map (·.id)).Nodup) :
    ((run s ops).db.machines.map (·.id)).Nodup ∧ ((run s ops).db.metrics.map (·.id)).Nodup := by
  induction ops generalizing s with
  | nil => exact hk
  | cons op ops ih => exact ih (step s op) (step_keys s op hk)

theorem reachable_keys (retentionDays : Int) (ops : List Op) :
    ((run (New retentionDays) ops).db.machines.map (·.id)).Nodup ∧
    ((run (New retentionDays) ops).db.metrics.map (·.id)).Nodup :=
  run_keys ops (New retentionDays) (by simp [New, emptyDB])

/-! ## Lemmas on first_seen and last_seen -/

theorem execUpsert_first_seen (db : DB) (now : Int) (h ip g r : String) :
    db.machines.map (fun m => (m.id, m.hostname, m.first_seen)) <+:
      (execUpsert db now h ip g r).machines.map (fun m => (m.id, m.hostname, m.first_seen)) := by
  by_cases hold : ∃ m ∈ db.machines, m.hostname = h
  · rw [execUpsert_machines_old db now h ip g r hold, List.map_map]
    have hfun : ((fun m : MachineRow => (m.id, m.hostname, m.first_seen)) ∘
        fun m : MachineRow => if m.hostname = h then upsertUpdateRow m now ip g r else m) =
        fun m => (m.id, m.hostname, m.first_seen) := by
      funext m
      by_cases hm : m.hostname = h <;> simp [hm, upsertUpdateRow]
    rw [hfun]
  · have hnew : ∀ m ∈ db.machines, m.hostname ≠ h := fun m hm hh => hold ⟨m, hm, hh⟩
    rw [execUpsert_machines_new db now h ip g r hnew, List.map_append]
    exact List.prefix_append _ _

theorem step_machines_cases (s : Storage) (op : Op) :
    (step s op).db.machines = s.db.machines ∨
    ∃ now h ip g r, op.time = some now ∧
      (step s op).db.machines = (execUpsert s.db now h ip g r).machines := by
  cases op with
  | upsertMachine now h ip g r =>
    right
    refine ⟨now, h, ip, g, r, rfl, ?_⟩
    show (UpsertMachine s now h ip g r).2.db.machines = _
    rw [upsertMachine_db]
  | insertMetrics now id m =>
    left
    exact insertMetrics_machines s now id m
  | saveMetrics now p =>
    right
    exact ⟨now, _, _, _, _, rfl, saveMetrics_machines s now p⟩
  | cleanupOldMetrics now => exact Or.inl rfl
  | reconnect => exact Or.inl rfl

theorem step_first_seen (s : Storage) (op : Op) :
    s.db.machines.map (fun m => (m.id, m.hostname, m.first_seen)) <+:
      (step s op).db.machines.map (fun m => (m.id, m.hostname, m.first_seen)) := by
  rcases step_machines_cases s op with h | ⟨now, h, ip, g, r, _, heq⟩
  · rw [h]
  · rw [heq]
    exact execUpsert_first_seen s.db now h ip g r

theorem run_first_seen (ops : List Op) (s : Storage) :
    s.db.machines.map (fun m => (m.id, m.hostname, m.first_seen)) <+:
      (run s ops).db.machines.map (fun m => (m.id, m.hostname, m.first_seen)) := by
  induction ops generalizing s with
  | nil => exact List.prefix_refl _
  | cons op ops ih => exact (step_first_seen s op).trans (ih (step s op))

theorem execUpsert_last_seen_eq (db : DB) (t : Int) (h ip g r : String) :
    (∃ m ∈ (execUpsert db t h ip g r).machines, m.hostname = h) ∧
    ∀ m ∈ (execUpsert db t h ip g r).machines, m.hostname = h → m.last_seen = t := by
  by_cases hold : ∃ m ∈ db.machines, m.hostname = h
  · rw [execUpsert_machines_old db t h ip g r hold]
    constructor
    · obtain ⟨m, hm, hh⟩ := hold
      refine ⟨upsertUpdateRow m t ip g r, List.mem_map.mpr ⟨m, hm, by simp [hh]⟩, hh⟩
    · intro m2 hm2 hh2
      obtain ⟨m, _, heq⟩ := List.mem_map.mp hm2
      by_cases hh : m.hostname = h
      · rw [if_pos hh] at heq
        rw [← heq]
        rfl
      · rw [if_neg hh] at heq
        rw [← heq] at hh2
        exact absurd hh2 hh
  · have hnew : ∀ m ∈ db.machines, m.hostname ≠ h := fun m hm hh => hold ⟨m, hm, hh⟩
    rw [execUpsert_machines_new db t h ip g r hnew]
    constructor
    · exact ⟨_, List.mem_append_right _ (List.mem_singleton_self _), rfl⟩
    · intro m2 hm2 hh2
      rcases List.mem_append.mp hm2 with hm | hm
      · exact absurd hh2 (hnew m2 hm)
      · rw [List.mem_singleton] at hm
        rw [hm]

theorem execUpsert_last_seen_mono (db : DB) (t : Int) (h ip g r : String)
    (hb : ∀ m ∈ db.machines, m.last_seen ≤ t) :
    (∀ m ∈ db.machines, ∃ m2 ∈ (execUpsert db t h ip g r).machines,
      m2.id = m.id ∧ m2.hostname = m.hostname ∧ m.last_seen ≤ m2.last_seen) ∧
    ∀ m2 ∈ (execUpsert db t h ip g r).machines, m2.last_seen ≤ t := by
  by_cases hold : ∃ m ∈ db.machines, m.hostname = h
  · rw [execUpsert_machines_old db t h ip g r hold]
    constructor
    · intro m hm
      refine ⟨_, List.mem_map.mpr ⟨m, hm, rfl⟩, ?_⟩
      by_cases hh : m.hostname = h
      · rw [if_pos hh]
        exact ⟨rfl, rfl, hb m hm⟩
      · rw [if_neg hh]
        exact ⟨rfl, rfl, le_refl _⟩
    · intro m2 hm2
      obtain ⟨m, hm, heq⟩ := List.mem_map.mp hm2
      by_cases hh : m.hostname = h
      · rw [if_pos hh] at heq
        rw [← heq]
        exact le_refl t
      · rw [if_neg hh] at heq
        rw [← heq]
        exact hb m hm
  · have hnew : ∀ m ∈ db.machines, m.hostname ≠ h := fun m hm hh => hold ⟨m, hm, hh⟩
    rw [execUpsert_machines_new db t h ip g r hnew]
    constructor
    · intro m hm
      exact ⟨m, List.mem_append_left _ hm, rfl, rfl, le_refl _⟩
    · intro m2 hm2
      rcases List.mem_append.mp hm2 with hm | hm
      · exact hb m2 hm
      · rw [List.mem_singleton] at hm
        rw [hm]

theorem step_last_seen_mono (s : Storage) (op : Op) (t0 : Int)
    (hb : ∀ m ∈ s.db.machines, m.last_seen ≤ t0) (ht : ∀ t, op.time = some t → t0 ≤ t) :
    (∀ m ∈ s.db.machines, ∃ m2 ∈ (step s op).db.machines,
      m2.id = m.id ∧ m2.hostname = m.hostname ∧ m.last_seen ≤ m2.last_seen) ∧
    ∀ m2 ∈ (step s op).db.machines, m2.last_seen ≤ op.time.getD t0 := by
  have hb2 : ∀ m ∈ s.db.machines, m.last_seen ≤ op.time.getD t0 := by
    intro m hm
    cases hop : op.time with
    | none => exact hb m hm
    | some t => exact le_trans (hb m hm) (ht t hop)
  rcases step_machines_cases s op with h | ⟨now, h, ip, g, r, htime, heq⟩
  · rw [h]
    exact ⟨fun m hm => ⟨m, hm, rfl, rfl, le_refl _⟩, hb2⟩
  · rw [heq, htime]
    rw [htime] at hb2
    exact execUpsert_last_seen_mono s.db now h ip g r hb2

theorem clock_cons (t0 : Int) (op : Op) (ops : List Op)
    (hclock : clockNondecreasing t0 (op :: ops) = true) :
    (∀ t, op.time = some t → t0 ≤ t) ∧ clockNondecreasing (op.time.getD t0) ops = true := by
  unfold clockNondecreasing at hclock
  cases hop : op.time with
  | none =>
    rw [hop] at hclock
    exact ⟨fun t ht => by simp at ht, hclock⟩
  | some t =>
    rw [hop] at hclock
    simp only [Bool.and_eq_true, decide_eq_true_eq] at hclock
    refine ⟨fun t2 ht2 => ?_, hclock.2⟩
    simp only [Option.some.injEq] at ht2
    rw [← ht2]
    exact hclock.1

theorem run_last_seen_mono (ops : List Op) (s : Storage) (t0 : Int)
    (hb : ∀ m ∈ s.db.machines, m.last_seen ≤ t0) (hclock : clockNondecreasing t0 ops = true) :
    ∀ m ∈ s.db.machines, ∃ m2 ∈ (run s ops).db.machines,
      m2.id = m.id ∧ m2.hostname = m.hostname ∧ m.last_seen ≤ m2.last_seen := by
  induction ops generalizing s t0 with
  | nil => exact fun m hm => ⟨m, hm, rfl, rfl, le_refl _⟩
  | cons op ops ih =>
    obtain ⟨ht, hrest⟩ := clock_cons t0 op ops hclock
    obtain ⟨hstep, hb2⟩ := step_last_seen_mono s op t0 hb ht
    intro m hm
    obtain ⟨m1, hm1, hid1, hh1, hle1⟩ := hstep m hm
    obtain ⟨m2, hm2, hid2, hh2, hle2⟩ := ih (step s op) (op.time.getD t0) hb2 hrest m1 hm1
    exact ⟨m2, hm2, hid2.trans hid1, hh2.trans hh1, le_trans hle1 hle2⟩

theorem run_clock_split (ops1 ops2 : List Op) (s : Storage) (t0 : Int)
    (hb : ∀ m ∈ s.db.machines, m.last_seen ≤ t0)
    (hclock : clockNondecreasing t0 (ops1 ++ ops2) = true) :
    ∃ t1, (∀ m ∈ (run s ops1).db.machines, m.last_seen ≤ t1) ∧
      clockNondecreasing t1 ops2 = true := by
  induction ops1 generalizing s t0 with
  | nil => exact ⟨t0, hb, hclock⟩
  | cons op ops ih =>
    obtain ⟨ht, hrest⟩ := clock_cons t0 op (ops ++ ops2) hclock
    exact ih (step s op) (op.time.getD t0) (step_last_seen_mono s op t0 hb ht).2 hrest

/-! ## Lemmas on the machine list -/

theorem flatMap_of_singleton {α β : Type} (l : List α) (f : α → List β) (g : α → β)
    (h : ∀ a ∈ l, f a = [g a]) : l.flatMap f = l.map g := by
  induction l with
  | nil => rfl
  | cons a l ih =>
    rw [List.flatMap_cons, List.map_cons, h a (List.mem_cons_self a l),
      ih (fun b hb => h b (List.mem_cons_of_mem a hb))]
    rfl

theorem rn1_filter_length_le_one (metrics : List MetricRow) (k : Int)
    (hids : (metrics.map (·.id)).Nodup) :
    ((metRn1 metrics).filter (fun r => decide (k = r.machine_id))).length ≤ 1 := by
  have hnd : ((metRn1 metrics).filter (fun r => decide (k = r.machine_id))).Nodup :=
    ((List.Nodup.of_map _ hids).filter _).filter _
  have heq : ∀ x ∈ (metRn1 metrics).filter (fun r => decide (k = r.machine_id)),
      ∀ y ∈ (metRn1 metrics).filter (fun r => decide (k = r.machine_id)), x = y := by
    intro x hx y hy
    simp only [List.mem_filter, decide_eq_true_eq] at hx hy
    obtain ⟨hxm, hxtop⟩ := (mem_metRn1 metrics x).mp hx.1
    obtain ⟨hym, hytop⟩ := (mem_metRn1 metrics y).mp hy.1
    have h1 := hxtop y hym (hy.2.symm.trans hx.2)
    have h2 := hytop x hxm (hx.2.symm.trans hy.2)
    simp only [comesBefore, Bool.or_eq_false_iff, Bool.and_eq_false_imp, decide_eq_false_iff_not,
      decide_eq_true_eq] at h1 h2
    exact List.inj_on_of_nodup_map hids hxm hym (by omega)
  generalize (metRn1 metrics).filter (fun r => decide (k = r.machine_id)) = l at hnd heq
  match l, hnd, heq with
  | [], _, _ => simp
  | [_], _, _ => simp
  | a :: b :: rest, hnd, heq =>
    have hab : a = b := heq a (by simp) b (by simp)
    rw [hab] at hnd
    simp at hnd

theorem leftJoin_head (m : MachineRow) (met : List MetricRow)
    (h : (met.filter (fun r => decide (m.id = r.machine_id))).length ≤ 1) :
    leftJoin m met = [(m, (met.filter (fun r => decide (m.id = r.machine_id))).head?)] := by
  unfold leftJoin
  generalize met.filter (fun r => decide (m.id = r.machine_id)) = l at h
  match l, h with
  | [], _ => rfl
  | [_], _ => rfl
  | _ :: _ :: _, h => simp at h

theorem isOnline_iff_stats (m : MachineRow) (nowNs : Int) (met : Option MetricRow) :
    (scanMachine nowNs m met).IsOnline = decide (m.last_seen > nowNs / 1000000000 - 70 * 60) := by
  unfold scanMachine parseDateTime
  simp only
  by_cases h : nowNs - m.last_seen * 1000000000 < 70 * 60 * 1000000000
  · have h2 : m.last_seen > nowNs / 1000000000 - 70 * 60 := by omega
    simp only [h, h2]
  · have h2 : ¬ m.last_seen > nowNs / 1000000000 - 70 * 60 := by omega
    simp only [h, h2]

/-! ## Lemmas on the dashboard ordering -/

theorem compareCodes_total (a b : List Nat) :
    compareCodes a b ≤ 0 ∨ compareCodes b a ≤ 0 := by
  induction a generalizing b with
  | nil =>
    cases b with
    | nil => simp [compareCodes]
    | cons y ys => simp [compareCodes]
  | cons x xs ih =>
    cases b with
    | nil => simp [compareCodes]
    | cons y ys =>
      unfold compareCodes
      by_cases h1 : x < y
      · simp [h1]
      · by_cases h2 : y < x
        · simp [h2]
        · simp only [h1, h2, if_false]
          exact ih ys

theorem compareCodes_trans (a b c : List Nat) (h1 : compareCodes a b ≤ 0)
    (h2 : compareCodes b c ≤ 0) : compareCodes a c ≤ 0 := by
  induction a generalizing b c with
  | nil =>
    cases c with
    | nil => simp [compareCodes]
    | cons z zs => simp [compareCodes]
  | cons x xs ih =>
    cases b with
    | nil => simp [compareCodes] at h1
    | cons y ys =>
      cases c with
      | nil => simp [compareCodes] at h2
      | cons z zs =>
        unfold compareCodes at h1 h2 ⊢
        by_cases hxy : x < y
        · have hxz : x < z := by
            by_cases hyz : y < z
            · omega
            · by_cases hzy : z < y
              · simp [hyz, hzy] at h2
              · omega
          simp [hxz]
        · by_cases hyx : y < x
          · simp [hxy, hyx] at h1
          · simp only [hxy, hyx, if_false] at h1
            have hxy2 : x = y := by omega
            subst hxy2
            by_cases hxz : x < z
            · simp [hxz]
            · by_cases hzx : z < x
              · simp [hxz, hzx] at h2
              · simp only [hxz, hzx, if_false] at h2 ⊢
                exact ih ys zs h1 h2

theorem caseInsensitiveCompare_total (a b : String) :
    caseInsensitiveCompare a b ≤ 0 ∨ caseInsensitiveCompare b a ≤ 0 :=
  compareCodes_total _ _

theorem caseInsensitiveCompare_trans (a b c : String) (h1 : caseInsensitiveCompare a b ≤ 0)
    (h2 : caseInsensitiveCompare b c ≤ 0) : caseInsensitiveCompare a c ≤ 0 :=
  compareCodes_trans _ _ _ h1 h2

theorem getStatusClass_values (machine : Machine) (nowMs : Int) :
    getStatusClass machine nowMs = "offline" ∨ getStatusClass machine nowMs = "warning" ∨
      getStatusClass machine nowMs = "online" := by
  by_cases h : nowMs - machine.LastSeen * 1000 > 4200000
  · exact Or.inl (getStatusClass_stale machine nowMs h)
  · rcases getStatusClass_fresh_ne_offline machine nowMs h with h1 | h1
    · exact Or.inr (Or.inr h1)
    · exact Or.inr (Or.inl h1)

theorem compareMachines_le_iff (cmp : String → String → Int) (nowMs : Int) (a b : Machine) :
    compareMachines cmp nowMs a b ≤ 0 ↔
      (statusRank (getStatusClass a nowMs) < statusRank (getStatusClass b nowMs) ∨
        (statusRank (getStatusClass a nowMs) = statusRank (getStatusClass b nowMs) ∧
          cmp a.Hostname b.Hostname ≤ 0)) := by
  unfold compareMachines
  simp only
  rcases getStatusClass_values a nowMs with ha | ha | ha <;>
    rcases getStatusClass_values b nowMs with hb | hb | hb <;>
    rw [ha, hb] <;> simp [statusRank]

theorem compareMachines_total (cmp : String → String → Int) (nowMs : Int)
    (htotal : ∀ x y, cmp x y ≤ 0 ∨ cmp y x ≤ 0) (a b : Machine) :
    compareMachines cmp nowMs a b ≤ 0 ∨ compareMachines cmp nowMs b a ≤ 0 := by
  rw [compareMachines_le_iff, compareMachines_le_iff]
  rcases Nat.lt_trichotomy (statusRank (getStatusClass a nowMs))
    (statusRank (getStatusClass b nowMs)) with h | h | h
  · exact Or.inl (Or.inl h)
  · rcases htotal a.Hostname b.Hostname with hc | hc
    · exact Or.inl (Or.inr ⟨h, hc⟩)
    · exact Or.inr (Or.inr ⟨h.symm, hc⟩)
  · exact Or.inr (Or.inl h)

theorem compareMachines_trans (cmp : String → String → Int) (nowMs : Int)
    (htrans : ∀ x y z, cmp x y ≤ 0 → cmp y z ≤ 0 → cmp x z ≤ 0) (a b c : Machine)
    (h1 : compareMachines cmp nowMs a b ≤ 0) (h2 : compareMachines cmp nowMs b c ≤ 0) :
    compareMachines cmp nowMs a c ≤ 0 := by
  rw [compareMachines_le_iff] at h1 h2 ⊢
  rcases h1 with h1 | ⟨h1, c1⟩ <;> rcases h2 with h2 | ⟨h2, c2⟩
  · exact Or.inl (by omega)
  · exact Or.inl (by omega)
  · exact Or.inl (by omega)
  · exact Or.inr ⟨h1.trans h2, htrans _ _ _ c1 c2⟩

theorem keyLE_total (a b : String) : keyLE a b ∨ keyLE b a :=
  compareCodes_total _ _

theorem keyLE_trans (a b c : String) (h1 : keyLE a b) (h2 : keyLE b c) : keyLE a c :=
  compareCodes_trans _ _ _ h1 h2

theorem pushToGroup_keys (gs : List (String × List Machine)) (k : String) (m : Machine) :
    (pushToGroup gs k m).map (·.1) = gs.map (·.1) := by
  induction gs with
  | nil => rfl
  | cons g gs ih =>
    unfold pushToGroup
    by_cases h : g.1 = k
    · simp [h]
    · simp [h, ih]

theorem pushToGroup_flat (gs : List (String × List Machine)) (k : String) (m : Machine)
    (hk : k ∈ gs.map (·.1)) :
    ((pushToGroup gs k m).flatMap (·.2)).Perm (gs.flatMap (·.2) ++ [m]) := by
  induction gs with
  | nil => simp at hk
  | cons g gs ih =>
    unfold pushToGroup
    by_cases h : g.1 = k
    · simp only [h, if_true, List.flatMap_cons, List.append_assoc]
      exact List.Perm.append_left g.2 List.perm_append_comm
    · have hk2 : k ∈ gs.map (·.1) := by
        simp only [List.map_cons, List.mem_cons] at hk
        rcases hk with hk | hk
        · exact absurd hk.symm h
        · exact hk
      simp only [h, if_false, List.flatMap_cons, List.append_assoc]
      exact List.Perm.append_left g.2 (ih hk2)

theorem pushToGroup_members (gs : List (String × List Machine)) (k : String) (m : Machine)
    (hm : groupKey m = k) (hall : ∀ g ∈ gs, ∀ x ∈ g.2, groupKey x = g.1) :
    ∀ g ∈ pushToGroup gs k m, ∀ x ∈ g.2, groupKey x = g.1 := by
  induction gs with
  | nil => intro g hg; simp [pushToGroup] at hg
  | cons g0 gs ih =>
    have hall2 : ∀ g ∈ gs, ∀ x ∈ g.2, groupKey x = g.1 :=
      fun g hg => hall g (List.mem_cons_of_mem g0 hg)
    unfold pushToGroup
    by_cases h : g0.1 = k
    · simp only [h, if_true]
      intro g hg x hx
      rcases List.mem_cons.mp hg with hg | hg
      · rw [hg] at hx ⊢
        simp only [List.mem_append, List.mem_singleton] at hx
        rcases hx with hx | hx
        · rw [← h]
          exact hall g0 (List.mem_cons_self g0 gs) x hx
        · rw [hx]
          exact hm
      · exact hall2 g hg x hx
    · simp only [h, if_false]
      intro g hg x hx
      rcases List.mem_cons.mp hg with hg | hg
      · rw [hg] at hx ⊢
        exact hall g0 (List.mem_cons_self g0 gs) x hx
      · exact ih hall2 g hg x hx

theorem addToGroup_ok (gs : List (String × List Machine)) (m : Machine)
    (hkey : groupKey m ∉ objectPrototypeKeys)
    (hnd : (gs.map (·.1)).Nodup) (hall : ∀ g ∈ gs, ∀ x ∈ g.2, groupKey x = g.1) :
    ∃ gs2, addToGroup gs m = Except.ok gs2 ∧ (gs2.map (·.1)).Nodup ∧
      (∀ g ∈ gs2, ∀ x ∈ g.2, groupKey x = g.1) ∧
      (gs2.flatMap (·.2)).Perm (gs.flatMap (·.2) ++ [m]) := by
  unfold addToGroup
  simp only
  by_cases hany : gs.any (fun g => decide (g.1 = groupKey m)) = true
  · rw [if_pos hany]
    have hk : groupKey m ∈ gs.map (·.1) := by
      rw [List.any_eq_true] at hany
      obtain ⟨g, hg, hgk⟩ := hany
      exact List.mem_map.mpr ⟨g, hg, by simpa using hgk⟩
    refine ⟨_, rfl, ?_, pushToGroup_members gs _ m rfl hall, pushToGroup_flat gs _ m hk⟩
    rw [pushToGroup_keys]
    exact hnd
  · rw [if_neg hany, if_neg hkey]
    have hnew : groupKey m ∉ gs.map (·.1) := by
      intro hk
      apply hany
      rw [List.any_eq_true]
      obtain ⟨g, hg, hgk⟩ := List.mem_map.mp hk
      exact ⟨g, hg, by simpa using hgk⟩
    refine ⟨_, rfl, ?_, ?_, ?_⟩
    · rw [List.map_append]
      refine List.Nodup.append hnd (by simp) ?_
      intro x hx hx2
      simp only [List.map_cons, List.map_nil, List.mem_singleton] at hx2
      rw [hx2] at hx
      exact hnew hx
    · intro g hg x hx
      rcases List.mem_append.mp hg with hg | hg
      · exact hall g hg x hx
      · rw [List.mem_singleton] at hg
        rw [hg] at hx ⊢
        simp only [List.mem_singleton] at hx
        rw [hx]
    · rw [List.flatMap_append]
      simp

theorem collectGroups_ok (rest : List Machine) (gs : List (String × List Machine))
    (hkeys : ∀ m ∈ rest, groupKey m ∉ objectPrototypeKeys)
    (hnd : (gs.map (·.1)).Nodup) (hall : ∀ g ∈ gs, ∀ x ∈ g.2, groupKey x = g.1) :
    ∃ out, collectGroups gs rest = Except.ok out ∧ (out.map (·.1)).Nodup ∧
      (∀ g ∈ out, ∀ x ∈ g.2, groupKey x = g.1) ∧
      (out.flatMap (·.2)).Perm (gs.flatMap (·.2) ++ rest) := by
  induction rest generalizing gs with
  | nil => exact ⟨gs, rfl, hnd, hall, by simp⟩
  | cons m rest ih =>
    obtain ⟨gs2, hadd, hnd2, hall2, hperm2⟩ :=
      addToGroup_ok gs m (hkeys m (List.mem_cons_self m rest)) hnd hall
    obtain ⟨out, hout, hnd3, hall3, hperm3⟩ :=
      ih gs2 (fun x hx => hkeys x (List.mem_cons_of_mem m hx)) hnd2 hall2
    refine ⟨out, ?_, hnd3, hall3, ?_⟩
    · unfold collectGroups
      rw [hadd]
      exact hout
    · refine hperm3.trans ?_
      have h := hperm2.append_right rest
      simpa using h

theorem flatMap_sorted_perm (r : Machine → Machine → Prop) [DecidableRel r]
    (gs : List (String × List Machine)) :
    ((gs.map (fun g => (g.1, g.2.insertionSort r))).flatMap (·.2)).Perm (gs.flatMap (·.2)) := by
  induction gs with
  | nil => simp
  | cons g gs ih =>
    simp only [List.map_cons, List.flatMap_cons]
    exact (List.perm_insertionSort r g.2).append ih

theorem groupMachines_inherited_key_throws :
    groupMachines caseInsensitiveCompare 1300000
      [{ emptyGroupMachine with GroupName := "constructor" }] =
      Except.error "TypeError: groups[group].push is not a function" := by
  rfl

/-! ## Lemmas on the scheduler -/

theorem todayAtThree_const (loc : Location) (nowNs offsetNs : Int)
    (hoff : -dayNs ≤ offsetNs ∧ offsetNs ≤ dayNs)
    (hwin : ∀ t, nowNs - 2 * dayNs ≤ t → t ≤ nowNs + 2 * dayNs → (loc t).offset = offsetNs) :
    todayAtThree loc nowNs =
      (nowNs + offsetNs) / dayNs * dayNs + 3 * 3600 * 1000000000 - offsetNs := by
  have h1 : (loc nowNs).offset = offsetNs :=
    hwin nowNs (by unfold dayNs; omega) (by unfold dayNs; omega)
  have h2 : (loc ((nowNs + offsetNs) / dayNs * dayNs + 3 * 3600 * 1000000000)).offset =
      offsetNs :=
    hwin _ (by unfold dayNs at *; omega) (by unfold dayNs at *; omega)
  have h3 : (loc ((nowNs + offsetNs) / dayNs * dayNs + 3 * 3600 * 1000000000 -
      offsetNs)).offset = offsetNs :=
    hwin _ (by unfold dayNs at *; omega) (by unfold dayNs at *; omega)
  unfold todayAtThree
  simp only [h1, h2]
  by_cases hz : offsetNs = 0
  · rw [if_neg (fun h => h hz), hz]
    omega
  · rw [if_pos hz]
    split
    · rw [h3]
    · rfl

theorem newYork_summer_2024 :
    ∀ t, 1718467200000000000 - 2 * dayNs ≤ t → t ≤ 1718467200000000000 + 2 * dayNs →
      (newYork t).offset = -14400000000000 := by
  intro t h1 _
  unfold newYork
  rw [if_neg (by unfold dayNs at h1; omega)]

/-- SUM fails once the running total leaves 64 bits, in the order the rows are
read; the total of the same values read in another order may fit. -/
theorem SUM_overflow :
    SUM [9223372036854775807, 1, -5] = Except.error "integer overflow" ∧
    SUM [-5, 9223372036854775807, 1] = Except.ok (some 9223372036854775803) ∧
    SUM [] = Except.ok none := by
  refine ⟨by rfl, by rfl, by rfl⟩

/-! ## Claims -/

/-- C1: for a hostname H that is not registered, UpsertMachine(H, ip1, g1, r1)
followed by UpsertMachine(H, ip2, "", r2) leaves exactly one machine row with
hostname H, and that row has ip = ip2, group = g1 and role = r2. -/
theorem upsertMachine_twice_single_row (s : Storage) (t1 t2 : Int)
    (H ip1 g1 r1 ip2 r2 : String) (hnew : ∀ m ∈ s.db.machines, m.hostname ≠ H) :
    ∃ row : MachineRow,
      (UpsertMachine (UpsertMachine s t1 H ip1 g1 r1).2 t2 H ip2 "" r2).2.db.machines.filter
        (fun m => decide (m.hostname = H)) = [row] ∧
      row.hostname = H ∧ row.ip = ip2 ∧ row.group_name = g1 ∧ row.swarm_role = r2 := by
  rw [upsertMachine_db, upsertMachine_db]
  have h1 := execUpsert_machines_new s.db t1 H ip1 g1 r1 hnew
  have hold : ∃ m ∈ (execUpsert s.db t1 H ip1 g1 r1).machines, m.hostname = H := by
    rw [h1]
    exact ⟨_, List.mem_append_right _ (List.mem_singleton_self _), rfl⟩
  rw [execUpsert_machines_old _ t2 H ip2 "" r2 hold, h1, List.map_append, List.filter_append,
    filter_hostname_update_absent _ t2 H ip2 "" r2 hnew]
  simp [upsertUpdateRow, NULLIF, COALESCE]

/-- C1 at a concrete store: a fresh database and the host web-1. -/
theorem upsertMachine_twice_single_row_witness :
    (∀ m ∈ (New 90).db.machines, m.hostname ≠ "web-1") ∧
    ∃ row : MachineRow,
      (UpsertMachine (UpsertMachine (New 90) 1000 "web-1" "10.0.0.1" "prod" "worker").2
        4600 "web-1" "10.0.0.2" "" "manager").2.db.machines.filter
        (fun m => decide (m.hostname = "web-1")) = [row] ∧
      row.hostname = "web-1" ∧ row.ip = "10.0.0.2" ∧ row.group_name = "prod" ∧
        row.swarm_role = "manager" :=
  ⟨by simp [New, emptyDB],
   upsertMachine_twice_single_row (New 90) 1000 4600 "web-1" "10.0.0.1" "prod" "worker"
     "10.0.0.2" "manager" (by simp [New, emptyDB])⟩

/-- C2 (the code at a failing input): hosts a and b are registered with ids 1
and 2; the next UpsertMachine for a goes down the update path, yet
result.LastInsertId() still holds 2, the rowid of the insert of b, and the
method returns 2 although the row of a has id 1. -/
theorem upsertMachine_returns_foreign_id :
    twoHosts.db.machines.map (fun m => (m.id, m.hostname)) = [(1, "a"), (2, "b")] ∧
    (UpsertMachine twoHosts 1120 "a" "10.0.0.1" "prod" "none").1 = Except.ok 2 ∧
    (UpsertMachine twoHosts 1120 "a" "10.0.0.1" "prod" "none").2.db.machines.map
      (fun m => (m.id, m.hostname)) = [(1, "a"), (2, "b")] := by
  refine ⟨by rfl, by rfl, by rfl⟩

/-- C3 (the code at a failing input): three successive reports of host a on a
fresh database.  The first two return id 1; the third gets 2 from
result.LastInsertId() (the rowid of the second sample), the sample insert
violates the foreign key, SaveMetrics fails and only two samples exist. -/
theorem saveMetrics_third_report_fails :
    (SaveMetrics (New 90) 1000 (reportA "10.0.0.1" 10)).1 = Except.ok 1 ∧
    (SaveMetrics (SaveMetrics (New 90) 1000 (reportA "10.0.0.1" 10)).2 1060
      (reportA "10.0.0.1" 20)).1 = Except.ok 1 ∧
    (UpsertMachine twoReports 1120 "a" "10.0.0.1" "prod" "none").1 = Except.ok 2 ∧
    (SaveMetrics twoReports 1120 (reportA "10.0.0.1" 30)).1 =
      Except.error "erro ao inserir métricas: FOREIGN KEY constraint failed" ∧
    (SaveMetrics twoReports 1120 (reportA "10.0.0.1" 30)).2.db.metrics.map
      (fun r => (r.id, r.machine_id)) = [(1, 1), (2, 1)] := by
  refine ⟨by rfl, by rfl, by rfl, by rfl, by rfl⟩

/-- C4 (counterexample): SaveMetrics returns an error and the store has changed.
The upsert of the failing call has rewritten ip and last_seen of the machine
row. -/
theorem saveMetrics_error_store_changed :
    (SaveMetrics twoReports 1120 (reportA "10.0.0.9" 30)).1 =
      Except.error "erro ao inserir métricas: FOREIGN KEY constraint failed" ∧
    twoReports.db.machines.map (fun m => (m.ip, m.last_seen)) = [("10.0.0.1", 1060)] ∧
    (SaveMetrics twoReports 1120 (reportA "10.0.0.9" 30)).2.db.machines.map
      (fun m => (m.ip, m.last_seen)) = [("10.0.0.9", 1120)] ∧
    (SaveMetrics twoReports 1120 (reportA "10.0.0.9" 30)).2 ≠ twoReports := by
  refine ⟨by rfl, by rfl, by rfl, ?_⟩
  intro h
  have h2 := congrArg (fun s => s.db.machines.map (fun m => m.last_seen)) h
  revert h2
  decide

/-- C4 (amended): when SaveMetrics returns an error, the samples are untouched
and the store is exactly the one the machine upsert leaves; the upsert is not
undone. -/
theorem saveMetrics_error_keeps_upsert (s : Storage) (now : Int) (p : MetricPayload)
    (e : String) (herr : (SaveMetrics s now p).1 = Except.error e) :
    (SaveMetrics s now p).2 = (UpsertMachine s now p.Hostname p.IP p.GroupName p.SwarmRole).2 ∧
    (SaveMetrics s now p).2.db.metrics = s.db.metrics := by
  have hm : (UpsertMachine s now p.Hostname p.IP p.GroupName p.SwarmRole).2.db.metrics
      = s.db.metrics := by
    rw [upsertMachine_db]
    unfold execUpsert
    simp only
    split <;> rfl
  rw [← hm]
  revert herr
  unfold SaveMetrics
  generalize UpsertMachine s now p.Hostname p.IP p.GroupName p.SwarmRole = u
  obtain ⟨res, s1⟩ := u
  cases res with
  | error err => intro _; exact ⟨rfl, rfl⟩
  | ok machineID =>
    simp only
    have hins := insertMetrics_error_unchanged s1 now machineID
      { CPUPercent := p.CPUPercent, MemoryPercent := p.MemoryPercent,
        DiskPercent := p.DiskPercent, DockerRunning := p.DockerRunning,
        DockerStopped := p.DockerStopped }
    revert hins
    generalize InsertMetrics s1 now machineID _ = v
    obtain ⟨res2, s2⟩ := v
    cases res2 with
    | error err2 =>
      intro hins _
      have h2 : s2 = s1 := hins err2 rfl
      subst h2
      exact ⟨rfl, rfl⟩
    | ok u => intro _ h; simp at h

/-- C4 (amended) at the third report of host a. -/
theorem saveMetrics_error_keeps_upsert_witness :
    (SaveMetrics twoReports 1120 (reportA "10.0.0.9" 30)).1 =
      Except.error "erro ao inserir métricas: FOREIGN KEY constraint failed" ∧
    (SaveMetrics twoReports 1120 (reportA "10.0.0.9" 30)).2 =
      (UpsertMachine twoReports 1120 "a" "10.0.0.9" "prod" "none").2 ∧
    (SaveMetrics twoReports 1120 (reportA "10.0.0.9" 30)).2.db.metrics =
      twoReports.db.metrics :=
  ⟨by rfl,
   saveMetrics_error_keeps_upsert twoReports 1120 (reportA "10.0.0.9" 30)
     "erro ao inserir métricas: FOREIGN KEY constraint failed" (by rfl)⟩

/-- C5: in every store reached from the empty store by a sequence of
UpsertMachine, InsertMetrics, SaveMetrics and CleanupOldMetrics calls (with the
connection recycled at any point), no two machine rows have the same
hostname. -/
theorem reachable_hostname_unique (retentionDays : Int) (ops : List Op) :
    ((run (New retentionDays) ops).db.machines.map (·.hostname)).Nodup :=
  run_hostnames_nodup ops (New retentionDays) (by simp [New, emptyDB])

/-- C6: for a machine with at least one sample whose samples have pairwise
distinct collection timestamps, GetMachinesWithMetrics returns the machine with
the values of its sample of maximum collection timestamp, and every entry with
the id of the machine carries those values. -/
theorem getMachinesWithMetrics_latest (s : Storage) (nowNs : Int) (m : MachineRow)
    (hm : m ∈ s.db.machines) (hne : samplesOf s m.id ≠ [])
    (hdist : (samplesOf s m.id).Pairwise (fun a b => a.collected_at ≠ b.collected_at)) :
    ∃ l r, GetMachinesWithMetrics s nowNs = Except.ok l ∧
      r ∈ samplesOf s m.id ∧ (∀ x ∈ samplesOf s m.id, x.collected_at ≤ r.collected_at) ∧
      scanMachine nowNs m (some r) ∈ l ∧ ∀ e ∈ l, e.ID = m.id → e.Metrics = some r.values := by
  obtain ⟨r, hr, hmax⟩ := exists_max_collected (samplesOf s m.id) hne
  have hr2 : r ∈ s.db.metrics ∧ r.machine_id = m.id := by
    simpa [samplesOf] using hr
  have htop : ∀ x ∈ s.db.metrics, x.machine_id = r.machine_id → x ≠ r →
      comesBefore r x = true := by
    intro x hx hxm hxr
    have hxs : x ∈ samplesOf s m.id := by
      simp only [samplesOf, List.mem_filter, decide_eq_true_eq]
      exact ⟨hx, hxm.trans hr2.2⟩
    have hne2 : x.collected_at ≠ r.collected_at :=
      List.Pairwise.forall (fun _ _ h => Ne.symm h) hdist hxs hr hxr
    have hle := hmax x hxs
    simp only [comesBefore, Bool.or_eq_true, Bool.and_eq_true, decide_eq_true_eq]
    left
    omega
  obtain ⟨l, hl, hin, hall⟩ := entries_of_selected s nowNs m r hm hr2.1 hr2.2 htop
  exact ⟨l, r, hl, hr, hmax, hin, hall⟩

/-- C6 at host a after two reports one minute apart: the later sample (CPU 20)
is the one attached. -/
theorem getMachinesWithMetrics_latest_witness :
    ({ id := 1, hostname := "a", ip := "10.0.0.1", group_name := "prod", swarm_role := "none",
       first_seen := 1000, last_seen := 1060 } : MachineRow) ∈ twoReports.db.machines ∧
    samplesOf twoReports 1 ≠ [] ∧
    (samplesOf twoReports 1).Pairwise (fun a b => a.collected_at ≠ b.collected_at) ∧
    ∃ l r, GetMachinesWithMetrics twoReports 1300000000000 = Except.ok l ∧
      r ∈ samplesOf twoReports 1 ∧
      (∀ x ∈ samplesOf twoReports 1, x.collected_at ≤ r.collected_at) ∧
      scanMachine 1300000000000
        { id := 1, hostname := "a", ip := "10.0.0.1", group_name := "prod",
          swarm_role := "none", first_seen := 1000, last_seen := 1060 } (some r) ∈ l ∧
      ∀ e ∈ l, e.ID = 1 → e.Metrics = some r.values :=
  ⟨by decide, by decide, by decide,
   getMachinesWithMetrics_latest twoReports 1300000000000
     { id := 1, hostname := "a", ip := "10.0.0.1", group_name := "prod", swarm_role := "none",
       first_seen := 1000, last_seen := 1060 } (by decide) (by decide) (by decide)⟩

/-- C7 (counterexample): a machine without samples and a machine whose only
sample has five zero values get the same result from GetMachinesWithMetrics and
from GetMachineByID; the metrics attached are not absent but a record of
zeros. -/
theorem no_samples_same_as_zero_sample :
    samplesOf noSamples 1 = [] ∧
    (samplesOf zeroSample 1).map MetricRow.values =
      [{ CPUPercent := 0, MemoryPercent := 0, DiskPercent := 0, DockerRunning := 0,
         DockerStopped := 0 }] ∧
    GetMachinesWithMetrics noSamples 1300000000000 =
      GetMachinesWithMetrics zeroSample 1300000000000 ∧
    GetMachineByID noSamples 1300000000000 1 = GetMachineByID zeroSample 1300000000000 1 ∧
    GetMachineByID noSamples 1300000000000 1 = Except.ok (some
      { ID := 1, Hostname := "a", IP := "10.0.0.1", GroupName := "prod", SwarmRole := "none",
        FirstSeen := 1000, LastSeen := 1000, IsOnline := true,
        Metrics := some { CPUPercent := 0, MemoryPercent := 0, DiskPercent := 0,
                          DockerRunning := 0, DockerStopped := 0 } }) := by
  refine ⟨by rfl, by rfl, by rfl, by rfl, by rfl⟩

/-- C7 (amended): for a machine with no samples, GetMachinesWithMetrics and
GetMachineByID attach a metrics record whose five values are zero, the record
they also attach for a latest sample of five zeros. -/
theorem no_samples_zero_metrics (s : Storage) (nowNs : Int) (m : MachineRow)
    (hm : m ∈ s.db.machines) (hnone : samplesOf s m.id = []) :
    (∃ l, GetMachinesWithMetrics s nowNs = Except.ok l ∧ scanMachine nowNs m none ∈ l ∧
      ∀ e ∈ l, e.ID = m.id → e.Metrics = some
        { CPUPercent := 0, MemoryPercent := 0, DiskPercent := 0, DockerRunning := 0,
          DockerStopped := 0 }) ∧
    (∃ e, GetMachineByID s nowNs m.id = Except.ok (some e) ∧ e.ID = m.id ∧
      e.Metrics = some
        { CPUPercent := 0, MemoryPercent := 0, DiskPercent := 0, DockerRunning := 0,
          DockerStopped := 0 }) ∧
    ∀ r : MetricRow, r.values =
        { CPUPercent := 0, MemoryPercent := 0, DiskPercent := 0, DockerRunning := 0,
          DockerStopped := 0 } → scanMetrics (some r) = scanMetrics none := by
  have hno : ∀ r ∈ s.db.metrics, r.machine_id ≠ m.id := by
    intro r hr hid
    have : r ∈ samplesOf s m.id := by simp [samplesOf, hr, hid]
    rw [hnone] at this
    simp at this
  refine ⟨?_, ?_, ?_⟩
  · obtain ⟨l, hl, hmem⟩ := mem_getMachinesWithMetrics s nowNs
    have hnoRn : ∀ (m2 : MachineRow), m2.id = m.id →
        ∀ r ∈ metRn1 s.db.metrics, m2.id ≠ r.machine_id :=
      fun m2 h2 r hr hid => hno r ((mem_metRn1 _ r).mp hr).1 (hid.symm.trans h2)
    refine ⟨l, hl, ?_, ?_⟩
    · rw [hmem]
      exact ⟨m, hm, none, (mem_leftJoin m m _ _).mpr ⟨rfl, Or.inl ⟨rfl, hnoRn m rfl⟩⟩, rfl⟩
    · intro e he hid
      obtain ⟨m2, _, o, hj, heq⟩ := (hmem e).mp he
      have hid2 : m2.id = m.id := by rw [heq] at hid; exact hid
      rcases ((mem_leftJoin m2 m2 o _).mp hj).2 with ⟨ho, _⟩ | ⟨x, hx, hxid, _⟩
      · rw [heq, ho]
        rfl
      · exact absurd hxid (hnoRn m2 hid2 x hx)
  · obtain ⟨m0, _, hid, hfind⟩ := find_machine_id s.db.machines m hm
    have hlim : metLimit1 s.db.metrics m.id = none := by
      have h : metLimit1 s.db.metrics m.id = firstByCollectedDesc (samplesOf s m.id) := rfl
      rw [h, hnone]
      rfl
    refine ⟨scanMachine nowNs m0 none, ?_, hid, rfl⟩
    rw [getMachineByID_eq, hfind, hlim]
    rfl
  · intro r hr
    rw [scanMetrics_some, hr]
    rfl

/-- C7 (amended) at host a, registered and without samples. -/
theorem no_samples_zero_metrics_witness :
    ({ id := 1, hostname := "a", ip := "10.0.0.1", group_name := "prod", swarm_role := "none",
       first_seen := 1000, last_seen := 1000 } : MachineRow) ∈ noSamples.db.machines ∧
    samplesOf noSamples 1 = [] ∧
    ∃ e, GetMachineByID noSamples 1300000000000 1 = Except.ok (some e) ∧ e.ID = 1 ∧
      e.Metrics = some
        { CPUPercent := 0, MemoryPercent := 0, DiskPercent := 0, DockerRunning := 0,
          DockerStopped := 0 } :=
  ⟨by decide, by rfl,
   (no_samples_zero_metrics noSamples 1300000000000
     { id := 1, hostname := "a", ip := "10.0.0.1", group_name := "prod", swarm_role := "none",
       first_seen := 1000, last_seen := 1000 } (by decide) (by rfl)).2.1⟩

/-- C8 (counterexample): host a has two samples with the same collection
timestamp, id 1 with CPU 10 and id 2 with CPU 90.  GetMachinesWithMetrics and
GetMachineByID attach the values of sample 1, and GetStats counts no machine
above the warning threshold: the sample with the highest identifier is not the
one selected. -/
theorem tie_selects_not_highest_id :
    (samplesOf tiedReports 1).map (fun r => (r.id, r.collected_at, r.cpu_percent)) =
      [(1, 1000, 10), (2, 1000, 90)] ∧
    GetMachinesWithMetrics tiedReports 1300000000000 = Except.ok
      [{ ID := 1, Hostname := "a", IP := "10.0.0.1", GroupName := "prod", SwarmRole := "none",
         FirstSeen := 1000, LastSeen := 1000, IsOnline := true,
         Metrics := some { CPUPercent := 10, MemoryPercent := 40, DiskPercent := 50,
                           DockerRunning := 3, DockerStopped := 1 } }] ∧
    GetMachineByID tiedReports 1300000000000 1 = Except.ok (some
      { ID := 1, Hostname := "a", IP := "10.0.0.1", GroupName := "prod", SwarmRole := "none",
        FirstSeen := 1000, LastSeen := 1000, IsOnline := true,
        Metrics := some { CPUPercent := 10, MemoryPercent := 40, DiskPercent := 50,
                          DockerRunning := 3, DockerStopped := 1 } }) ∧
    GetStats tiedReports 1300 = Except.ok
      { total_machines := 1, online := 1, warning := 0, offline := 0,
        total_containers := 3 } := by
  refine ⟨by rfl, by rfl, by rfl, by rfl⟩

/-- C8 (amended): with sample identifiers pairwise distinct, the sample that
GetMachinesWithMetrics, GetMachineByID and the joins of GetStats select for a
machine is the one with the maximal collection timestamp and, among the samples
sharing that timestamp, the lowest identifier. -/
theorem tie_selects_lowest_id (s : Storage) (nowNs : Int) (m : MachineRow) (r : MetricRow)
    (hm : m ∈ s.db.machines) (hids : (s.db.metrics.map (·.id)).Nodup)
    (hr : r ∈ samplesOf s m.id)
    (hmax : ∀ x ∈ samplesOf s m.id, x.collected_at ≤ r.collected_at)
    (hlow : ∀ x ∈ samplesOf s m.id, x.collected_at = r.collected_at → r.id ≤ x.id) :
    (∃ l, GetMachinesWithMetrics s nowNs = Except.ok l ∧ scanMachine nowNs m (some r) ∈ l ∧
      ∀ e ∈ l, e.ID = m.id → e.Metrics = some r.values) ∧
    (∃ e, GetMachineByID s nowNs m.id = Except.ok (some e) ∧ e.ID = m.id ∧
      e.Metrics = some r.values) ∧
    (m, r) ∈ innerJoinRn1 s.db ∧ ∀ p ∈ innerJoinRn1 s.db, p.1.id = m.id → p.2 = r := by
  have hr2 : r ∈ s.db.metrics ∧ r.machine_id = m.id := by
    simpa [samplesOf] using hr
  have htop : ∀ x ∈ s.db.metrics, x.machine_id = r.machine_id → x ≠ r →
      comesBefore r x = true := by
    intro x hx hxm hxr
    have hxs : x ∈ samplesOf s m.id := by
      simp only [samplesOf, List.mem_filter, decide_eq_true_eq]
      exact ⟨hx, hxm.trans hr2.2⟩
    have hidne : x.id ≠ r.id :=
      fun h => hxr (List.inj_on_of_nodup_map hids hx hr2.1 h)
    have hle := hmax x hxs
    have hlo := hlow x hxs
    simp only [comesBefore, Bool.or_eq_true, Bool.and_eq_true, decide_eq_true_eq]
    omega
  exact ⟨entries_of_selected s nowNs m r hm hr2.1 hr2.2 htop,
    byID_of_selected s nowNs m r hm hr2.1 hr2.2 htop,
    stats_of_selected s m r hm hr2.1 hr2.2 htop⟩

/-- C8 (amended) at host a with two samples of the same second: sample 1 is
selected. -/
theorem tie_selects_lowest_id_witness :
    (tiedReports.db.metrics.map (·.id)).Nodup ∧
    (samplesOf tiedReports 1).map (fun r => (r.id, r.collected_at)) = [(1, 1000), (2, 1000)] ∧
    ∃ e, GetMachineByID tiedReports 1300000000000 1 = Except.ok (some e) ∧ e.ID = 1 ∧
      e.Metrics = some
        { CPUPercent := 10, MemoryPercent := 40, DiskPercent := 50, DockerRunning := 3,
          DockerStopped := 1 } :=
  ⟨by decide, by rfl,
   (tie_selects_lowest_id tiedReports 1300000000000
     { id := 1, hostname := "a", ip := "10.0.0.1", group_name := "prod", swarm_role := "none",
       first_seen := 1000, last_seen := 1000 }
     { id := 1, machine_id := 1, collected_at := 1000, cpu_percent := 10, memory_percent := 40,
       disk_percent := 50, docker_running := 3, docker_stopped := 1 }
     (by decide) (by decide) (by decide) (by decide) (by decide)).2.1⟩

/-- C9: with a retention setting d >= 0, CleanupOldMetrics keeps exactly the
samples whose collection time is not earlier than now minus d days, in their
order and unchanged, deletes the others and returns their number; with samples
aged 200, 100, 50 and 10 days and d = 90 it deletes the first two, keeps the
last two and returns 2. -/
theorem cleanupOldMetrics_deletes_older (s : Storage) (now : Int)
    (hd : 0 ≤ s.retentionDays) :
    (CleanupOldMetrics s now).2.db.metrics =
      s.db.metrics.filter (fun r => decide (now - s.retentionDays * 86400 ≤ r.collected_at)) ∧
    (CleanupOldMetrics s now).1 = Except.ok
      (((s.db.metrics.filter
        (fun r => decide (r.collected_at < now - s.retentionDays * 86400))).length : Nat) : Int) ∧
    (∀ r, r ∈ (CleanupOldMetrics s now).2.db.metrics ↔
      r ∈ s.db.metrics ∧ ¬ r.collected_at < now - s.retentionDays * 86400) ∧
    agedStore.db.metrics.map (fun r => (r.id, (agedNow - r.collected_at) / 86400)) =
      [(1, 200), (2, 100), (3, 50), (4, 10)] ∧
    (CleanupOldMetrics agedStore agedNow).1 = Except.ok 2 ∧
    (CleanupOldMetrics agedStore agedNow).2.db.metrics.map
      (fun r => (r.id, (agedNow - r.collected_at) / 86400)) = [(3, 50), (4, 10)] := by
  have hcut : datetimeMinus now s.retentionDays 86400 = some (now - s.retentionDays * 86400) := by
    simp [datetimeMinus, not_lt.mpr hd]
  have hkeep : (CleanupOldMetrics s now).2.db.metrics =
      s.db.metrics.filter (fun r => decide (now - s.retentionDays * 86400 ≤ r.collected_at)) := by
    simp only [CleanupOldMetrics, hcut, olderThan]
    apply List.filter_congr
    intro r _
    by_cases h : r.collected_at < now - s.retentionDays * 86400
    · have h2 : ¬ now - s.retentionDays * 86400 ≤ r.collected_at := not_le.mpr h
      simp only [h, h2, decide_True, decide_False, Bool.not_true]
    · have h2 : now - s.retentionDays * 86400 ≤ r.collected_at := not_lt.mp h
      simp only [h, h2, decide_True, decide_False, Bool.not_false]
  have holder : olderThan (some (now - s.retentionDays * 86400)) =
      fun r => decide (r.collected_at < now - s.retentionDays * 86400) := by
    funext r
    rfl
  refine ⟨hkeep, ?_, ?_, by rfl, by rfl, by rfl⟩
  · simp only [CleanupOldMetrics, hcut, holder]
  · intro r
    rw [hkeep, List.mem_filter, decide_eq_true_eq, not_lt]

/-- C9 at the retention scenario: four samples, d = 90. -/
theorem cleanupOldMetrics_deletes_older_witness :
    0 ≤ agedStore.retentionDays ∧
    (CleanupOldMetrics agedStore agedNow).2.db.metrics =
      agedStore.db.metrics.filter
        (fun r => decide (agedNow - agedStore.retentionDays * 86400 ≤ r.collected_at)) ∧
    (CleanupOldMetrics agedStore agedNow).1 = Except.ok
      (((agedStore.db.metrics.filter (fun r =>
        decide (r.collected_at < agedNow - agedStore.retentionDays * 86400))).length : Nat) :
        Int) :=
  ⟨by decide,
   (cleanupOldMetrics_deletes_older agedStore agedNow (by decide)).1,
   (cleanupOldMetrics_deletes_older agedStore agedNow (by decide)).2.1⟩

/-- C10: CleanupOldMetrics leaves the machines table as it is, row for row and
field for field, also for a machine all of whose samples it deletes; it changes
nothing but the samples. -/
theorem cleanupOldMetrics_keeps_machines (s : Storage) (now : Int) :
    (CleanupOldMetrics s now).2.db.machines = s.db.machines ∧
    (CleanupOldMetrics s now).2.db.seq_machines = s.db.seq_machines ∧
    (CleanupOldMetrics agedStore (agedNow + 365 * 86400)).2.db.metrics = [] ∧
    (CleanupOldMetrics agedStore (agedNow + 365 * 86400)).2.db.machines =
      agedStore.db.machines := by
  refine ⟨rfl, rfl, by rfl, by rfl⟩

/-- C11 (counterexample): a sample of machine 1 written exactly 24 hours before
the query is not older than now minus 24 hours, and GetMetricsHistory(1, 24)
leaves it out. -/
theorem history_excludes_sample_at_cutoff :
    boundaryStore.db.metrics.map (fun r => (r.machine_id, boundaryNow - r.collected_at)) =
      [(1, 24 * 3600)] ∧
    GetMetricsHistory boundaryStore boundaryNow 1 24 = Except.ok [] := by
  refine ⟨by rfl, by rfl⟩

/-- C11 (amended): for a window of h >= 0 hours whose start now - h hours is a
date SQLite represents, GetMetricsHistory(id, h) returns exactly the samples of
machine id whose collection time is strictly later than now minus h hours, each
once; when the start is outside that range the cutoff is NULL and the list is
empty.  With samples aged 48, 25 and 1 hours it returns only the 1-hour-old
sample for h = 24 and nothing for h = 100000000. -/
theorem getMetricsHistory_window (s : Storage) (now : Int) (id : Int) (h : Int)
    (hh : 0 ≤ h) :
    (validDate now = true → validDate (now - h * 3600) = true →
      ∃ l, GetMetricsHistory s now id h = Except.ok l ∧
        l.Perm ((s.db.metrics.filter
          (fun r => decide (r.machine_id = id ∧ now - h * 3600 < r.collected_at))).map
            historyEntry)) ∧
    (¬ (validDate now = true ∧ validDate (now - h * 3600) = true) →
      GetMetricsHistory s now id h = Except.ok []) ∧
    historyStore.db.metrics.map (fun r => (r.machine_id, (historyNow - r.collected_at) / 3600)) =
      [(1, 48), (1, 25), (1, 1)] ∧
    GetMetricsHistory historyStore historyNow 1 24 = Except.ok
      [{ collected_at := historyNow - 3600, cpu_percent := 30, memory_percent := 40,
         disk_percent := 50, docker_running := 3, docker_stopped := 1 }] ∧
    GetMetricsHistory historyStore historyNow 1 100000000 = Except.ok [] := by
  have hminus : datetimeMinus now h 3600 = some (now - h * 3600) := by
    simp [datetimeMinus, not_lt.mpr hh]
  refine ⟨?_, ?_, by rfl, by rfl, by rfl⟩
  · intro hnow hcutoff
    refine ⟨_, rfl, ?_⟩
    have hcut : datetimeChecked now h 3600 = some (now - h * 3600) := by
      simp [datetimeChecked, hminus, hnow, hcutoff]
    have hfilter : s.db.metrics.filter
        (fun r => decide (r.machine_id = id) && newerThan (datetimeChecked now h 3600) r) =
        s.db.metrics.filter
          (fun r => decide (r.machine_id = id ∧ now - h * 3600 < r.collected_at)) := by
      apply List.filter_congr
      intro r _
      rw [hcut]
      simp only [newerThan, gt_iff_lt, Bool.decide_and]
    rw [hfilter]
    exact (List.perm_insertionSort historyOrder _).map historyEntry
  · intro hinvalid
    have hcut : datetimeChecked now h 3600 = none := by
      unfold datetimeChecked
      rw [hminus]
      simp only
      rw [if_neg]
      simpa using hinvalid
    have hfilter : s.db.metrics.filter
        (fun r => decide (r.machine_id = id) && newerThan (datetimeChecked now h 3600) r) =
        [] := by
      rw [List.filter_eq_nil_iff]
      intro r _
      rw [hcut]
      simp [newerThan]
    unfold GetMetricsHistory
    simp only
    rw [hfilter]
    rfl

/-- C11 (amended) at the three-sample scenario with a window of 24 hours. -/
theorem getMetricsHistory_window_witness :
    (0 : Int) ≤ 24 ∧ validDate historyNow = true ∧ validDate (historyNow - 24 * 3600) = true ∧
    ∃ l, GetMetricsHistory historyStore historyNow 1 24 = Except.ok l ∧
      l.Perm ((historyStore.db.metrics.filter
        (fun r => decide (r.machine_id = 1 ∧ historyNow - 24 * 3600 < r.collected_at))).map
          historyEntry) :=
  ⟨by decide, by decide, by decide,
   (getMetricsHistory_window historyStore historyNow 1 24 (by decide)).1 (by decide)
     (by decide)⟩

/-- C12: the list GetMetricsHistory returns is ordered newest first: every entry
has a collection timestamp not earlier than that of any later entry, consecutive
ones in particular. -/
theorem getMetricsHistory_newest_first (s : Storage) (now : Int) (id : Int) (h : Int) :
    ∃ l, GetMetricsHistory s now id h = Except.ok l ∧
      l.Pairwise (fun a b => b.collected_at ≤ a.collected_at) ∧
      l.Chain' (fun a b => b.collected_at ≤ a.collected_at) := by
  have hsorted : ∀ rows : List MetricRow,
      ((rows.insertionSort historyOrder).map historyEntry).Pairwise
        (fun a b => b.collected_at ≤ a.collected_at) := by
    intro rows
    haveI : IsTotal MetricRow historyOrder := ⟨historyOrder_total⟩
    haveI : IsTrans MetricRow historyOrder := ⟨historyOrder_trans⟩
    have h1 : (rows.insertionSort historyOrder).Pairwise historyOrder :=
      List.sorted_insertionSort historyOrder rows
    rw [List.pairwise_map]
    exact h1.imp (fun {a b} hab => historyOrder_collected a b hab)
  exact ⟨_, rfl, hsorted _, (hsorted _).chain'⟩

/-- C13: with machine identifiers pairwise distinct, GetMachineByID(id) returns
the not-found result (nil, nil) exactly when no machine row has identifier id;
every registered machine is returned as found with its own id and hostname, and
one without samples is returned with the machine fields of its row. -/
theorem getMachineByID_not_found_iff (s : Storage) (nowNs : Int) (id : Int)
    (hids : (s.db.machines.map (·.id)).Nodup) :
    (GetMachineByID s nowNs id = Except.ok none ↔ ∀ m ∈ s.db.machines, m.id ≠ id) ∧
    (∀ m ∈ s.db.machines, ∃ e, GetMachineByID s nowNs m.id = Except.ok (some e) ∧
      e.ID = m.id ∧ e.Hostname = m.hostname) ∧
    (∀ m ∈ s.db.machines, samplesOf s m.id = [] →
      GetMachineByID s nowNs m.id = Except.ok (some (scanMachine nowNs m none))) := by
  refine ⟨?_, ?_, ?_⟩
  · rw [getMachineByID_eq]
    simp only [Except.ok.injEq, Option.map_eq_none', List.find?_eq_none, decide_eq_true_eq]
  · intro m hm
    refine ⟨scanMachine nowNs m (metLimit1 s.db.metrics m.id), ?_, rfl, rfl⟩
    rw [getMachineByID_eq, find_machine_unique s.db.machines m hm hids]
    rfl
  · intro m hm hnone
    have hlim : metLimit1 s.db.metrics m.id = none := by
      have h : metLimit1 s.db.metrics m.id = firstByCollectedDesc (samplesOf s m.id) := rfl
      rw [h, hnone]
      rfl
    rw [getMachineByID_eq, find_machine_unique s.db.machines m hm hids, hlim]
    rfl

/-- C13 at host a, registered without samples: id 1 is found, id 2 is not. -/
theorem getMachineByID_not_found_iff_witness :
    (noSamples.db.machines.map (·.id)).Nodup ∧
    (GetMachineByID noSamples 1300000000000 2 = Except.ok none ↔
      ∀ m ∈ noSamples.db.machines, m.id ≠ 2) ∧
    GetMachineByID noSamples 1300000000000 2 = Except.ok none ∧
    ∀ m ∈ noSamples.db.machines, ∃ e,
      GetMachineByID noSamples 1300000000000 m.id = Except.ok (some e) ∧
      e.ID = m.id ∧ e.Hostname = m.hostname :=
  ⟨by decide,
   (getMachineByID_not_found_iff noSamples 1300000000000 2 (by decide)).1,
   by rfl,
   (getMachineByID_not_found_iff noSamples 1300000000000 2 (by decide)).2.1⟩

/-- C14: getStatusClass returns offline exactly when now - lastSeen is greater
than 70 minutes, whatever the metrics are: a machine last seen 71 minutes ago is
offline, one last seen 69 minutes ago is online or warning. -/
theorem getStatusClass_offline_iff (machine : Machine) (nowMs : Int) (t : Int) :
    (getStatusClass machine nowMs = "offline" ↔
      nowMs - machine.LastSeen * 1000 > 70 * 60 * 1000) ∧
    getStatusClass { machine with LastSeen := t } (t * 1000 + 71 * 60 * 1000) = "offline" ∧
    (getStatusClass { machine with LastSeen := t } (t * 1000 + 69 * 60 * 1000) = "online" ∨
      getStatusClass { machine with LastSeen := t } (t * 1000 + 69 * 60 * 1000) = "warning") := by
  refine ⟨?_, ?_, ?_⟩
  · constructor
    · intro hoff
      by_contra hfresh
      have hfresh2 : ¬ nowMs - machine.LastSeen * 1000 > 4200000 := by
        intro h
        apply hfresh
        omega
      rcases getStatusClass_fresh_ne_offline machine nowMs hfresh2 with h | h
      · rw [h] at hoff
        revert hoff
        decide
      · rw [h] at hoff
        revert hoff
        decide
    · intro h
      exact getStatusClass_stale machine nowMs (by omega)
  · apply getStatusClass_stale
    show t * 1000 + 71 * 60 * 1000 - t * 1000 > 4200000
    omega
  · apply getStatusClass_fresh_ne_offline
    show ¬ t * 1000 + 69 * 60 * 1000 - t * 1000 > 4200000
    omega

/-- C15: for a machine that is not offline and carries the metrics m of its
latest sample, getStatusClass returns warning exactly when CPU, memory or disk
percent of m is strictly greater than 85, and online otherwise; a value of
exactly 85 gives online and 85.0001 gives warning. -/
theorem getStatusClass_warning_iff (machine : Machine) (nowMs : Int) (m : Metrics)
    (hm : machine.Metrics = some m) (hon : getStatusClass machine nowMs ≠ "offline") :
    (getStatusClass machine nowMs = "warning" ↔
      m.CPUPercent > 85 ∨ m.MemoryPercent > 85 ∨ m.DiskPercent > 85) ∧
    (getStatusClass machine nowMs = "online" ↔
      ¬ (m.CPUPercent > 85 ∨ m.MemoryPercent > 85 ∨ m.DiskPercent > 85)) ∧
    getStatusClass { machine with Metrics := some (valuesWithCPU 85) } nowMs = "online" ∧
    getStatusClass { machine with Metrics := some (valuesWithCPU 85.0001) } nowMs =
      "warning" := by
  have hfresh : ¬ nowMs - machine.LastSeen * 1000 > 4200000 :=
    fun h => hon (getStatusClass_stale machine nowMs h)
  have hval := getStatusClass_fresh machine nowMs hfresh
  rw [hm] at hval
  simp only at hval
  refine ⟨?_, ?_, ?_, ?_⟩
  · rw [hval]
    by_cases h : m.CPUPercent > 85 ∨ m.MemoryPercent > 85 ∨ m.DiskPercent > 85
    · simp [h]
    · simp only [h, if_false, iff_false]
      decide
  · rw [hval]
    by_cases h : m.CPUPercent > 85 ∨ m.MemoryPercent > 85 ∨ m.DiskPercent > 85
    · simp only [h, if_true, not_true_eq_false, iff_false]
      decide
    · simp [h]
  · rw [getStatusClass_fresh { machine with Metrics := some (valuesWithCPU 85) } nowMs hfresh]
    norm_num [valuesWithCPU]
  · rw [getStatusClass_fresh { machine with Metrics := some (valuesWithCPU 85.0001) } nowMs
      hfresh]
    norm_num [valuesWithCPU]

/-- C15 at host a, five minutes after a report with CPU 90. -/
theorem getStatusClass_warning_iff_witness :
    hotMachine.Metrics = some (valuesWithCPU 90) ∧
    getStatusClass hotMachine 1300000 ≠ "offline" ∧
    (getStatusClass hotMachine 1300000 = "warning" ↔
      (valuesWithCPU 90).CPUPercent > 85 ∨ (valuesWithCPU 90).MemoryPercent > 85 ∨
        (valuesWithCPU 90).DiskPercent > 85) :=
  ⟨rfl, getStatusClass_fresh_not_offline hotMachine 1300000 (by decide),
   (getStatusClass_warning_iff hotMachine 1300000 (valuesWithCPU 90) rfl
     (getStatusClass_fresh_not_offline hotMachine 1300000 (by decide))).1⟩

/-- C16 (counterexample): one machine, seen five minutes ago, latest sample with
CPU 90.  Its status under the staleness and warning rules is warning, yet
GetStats counts it under online as well as under warning: online 1, warning 1,
offline 0 for a total of 1 machine. -/
theorem getStats_counts_overlap :
    GetMachinesWithMetrics hotHost 1300000000000 = Except.ok [hotMachine] ∧
    getStatusClass hotMachine 1300000 = "warning" ∧
    GetStats hotHost 1300 = Except.ok
      { total_machines := 1, online := 1, warning := 1, offline := 0,
        total_containers := 3 } := by
  refine ⟨by rfl, ?_, by rfl⟩
  rw [getStatusClass_fresh hotMachine 1300000 (by decide)]
  norm_num [hotMachine, valuesWithCPU]

/-- C16 (amended): GetStats returns as online the number of machines seen less
than 70 minutes ago, whatever their metrics, as offline the number of the other
machines, so that online + offline = total_machines, and as warning the number
of machines whose latest sample has CPU, memory or disk above 85, whether they
are stale or not. -/
theorem getStats_counts (s : Storage) (now : Int) :
    ∃ st, GetStats s now = Except.ok st ∧
      st.total_machines = s.db.machines.length ∧
      st.online =
        (s.db.machines.filter (fun m => decide (now - m.last_seen < 70 * 60))).length ∧
      st.offline =
        (s.db.machines.filter (fun m => decide (70 * 60 ≤ now - m.last_seen))).length ∧
      st.online + st.offline = st.total_machines ∧
      st.warning = ((s.db.machines.filter (fun m => (metRn1 s.db.metrics).any
        (fun r => decide (m.id = r.machine_id) && aboveWarning r))).map (·.id)).dedup.length := by
  have hon : s.db.machines.filter (fun m => decide (m.last_seen > now - 70 * 60)) =
      s.db.machines.filter (fun m => decide (now - m.last_seen < 70 * 60)) := by
    apply List.filter_congr
    intro m _
    by_cases h : m.last_seen > now - 70 * 60
    · have h2 : now - m.last_seen < 70 * 60 := by omega
      simp only [h, h2]
    · have h2 : ¬ now - m.last_seen < 70 * 60 := by omega
      simp only [h, h2]
  have hoff : s.db.machines.filter (fun m => !decide (now - m.last_seen < 70 * 60)) =
      s.db.machines.filter (fun m => decide (70 * 60 ≤ now - m.last_seen)) := by
    apply List.filter_congr
    intro m _
    by_cases h : now - m.last_seen < 70 * 60
    · have h2 : ¬ 70 * 60 ≤ now - m.last_seen := by omega
      simp only [h, h2, decide_True, decide_False, Bool.not_true]
    · have h2 : 70 * 60 ≤ now - m.last_seen := by omega
      simp only [h, h2, decide_True, decide_False, Bool.not_false]
  have hlen := List.length_eq_length_filter_add (l := s.db.machines)
    (fun m => decide (now - m.last_seen < 70 * 60))
  rw [hoff] at hlen
  refine ⟨_, rfl, rfl, ?_, ?_, ?_, ?_⟩
  · show ((s.db.machines.filter (fun m => decide (m.last_seen > now - 70 * 60))).length : Int) = _
    rw [hon]
  · show (s.db.machines.length : Int) -
      ((s.db.machines.filter (fun m => decide (m.last_seen > now - 70 * 60))).length : Int) = _
    rw [hon]
    omega
  · show ((s.db.machines.filter (fun m => decide (m.last_seen > now - 70 * 60))).length : Int) +
      ((s.db.machines.length : Int) -
        ((s.db.machines.filter (fun m => decide (m.last_seen > now - 70 * 60))).length : Int)) =
      (s.db.machines.length : Int)
    omega
  · show ((((innerJoinRn1 s.db).filter (fun p => aboveWarning p.2)).map
      (·.1.id)).dedup.length : Int) = _
    congr 1
    apply dedup_length_congr
    intro x
    simp only [List.mem_map, List.mem_filter, mem_innerJoinRn1, List.any_eq_true,
      Bool.and_eq_true, decide_eq_true_eq]
    constructor
    · rintro ⟨p, ⟨⟨hm, hr, hid⟩, hw⟩, hx⟩
      exact ⟨p.1, ⟨hm, p.2, hr, hid, hw⟩, hx⟩
    · rintro ⟨m, ⟨hm, r, hr, hid, hw⟩, hx⟩
      exact ⟨(m, r), ⟨⟨hm, hr, hid⟩, hw⟩, hx⟩

/-- C17 (the code at a failing input): GetStats is its body applied to the
outcomes of its four queries; with every query failing (the handle is closed)
the body returns a map of zeros and a nil error, and whatever the outcomes of
the queries it never returns an error. -/
theorem getStats_swallows_query_errors (s : Storage) (now : Int) :
    GetStats s now = GetStatsFrom (statsQueries s now) ∧
    GetStatsFrom closedQueries = Except.ok
      { total_machines := 0, online := 0, warning := 0, offline := 0,
        total_containers := 0 } ∧
    ∀ q : StatsQueries, ∃ st, GetStatsFrom q = Except.ok st :=
  ⟨rfl, rfl, fun _ => ⟨_, rfl⟩⟩

/-- C18: for a decoded report handleMetrics answers 400 exactly when the
hostname is empty, and then has not called SaveMetrics: the store is unchanged.
For a non-empty hostname the store is the one SaveMetrics leaves, whatever the
other fields; when SaveMetrics returns id the answer is status ok with
machine_id = id, and when it fails the answer is 500. -/
theorem handleMetrics_validation (s : Storage) (now : Int) (p : MetricPayload) :
    ((handleMetrics s now "POST" (some p)).1.code = 400 ↔ p.Hostname = "") ∧
    (p.Hostname = "" → handleMetrics s now "POST" (some p) =
      ({ code := 400, body := Body.jsonError "hostname é obrigatório" }, s)) ∧
    (p.Hostname ≠ "" →
      (handleMetrics s now "POST" (some p)).2 = (SaveMetrics s now p).2 ∧
      (∀ id, (SaveMetrics s now p).1 = Except.ok id →
        (handleMetrics s now "POST" (some p)).1 = { code := 201, body := Body.jsonOk id }) ∧
      (∀ e, (SaveMetrics s now p).1 = Except.error e →
        (handleMetrics s now "POST" (some p)).1.code = 500)) := by
  have hpost : ¬ ("POST" ≠ "POST") := fun h => h rfl
  by_cases hh : p.Hostname = ""
  · have hval : handleMetrics s now "POST" (some p) =
        ({ code := 400, body := Body.jsonError "hostname é obrigatório" }, s) := by
      unfold handleMetrics
      rw [if_neg hpost]
      simp only [hh, if_true]
    refine ⟨?_, fun _ => hval, fun hne => absurd hh hne⟩
    rw [hval]
    exact ⟨fun _ => hh, fun _ => rfl⟩
  · have hval : handleMetrics s now "POST" (some p) =
        match SaveMetrics s now p with
        | (Except.error _, s1) =>
          ({ code := 500, body := Body.jsonError "Erro ao salvar métricas" }, s1)
        | (Except.ok machineID, s1) => ({ code := 201, body := Body.jsonOk machineID }, s1) := by
      unfold handleMetrics
      rw [if_neg hpost]
      simp only [hh, if_false]
    rw [hval]
    generalize SaveMetrics s now p = v
    obtain ⟨res, s1⟩ := v
    cases res with
    | error err =>
      refine ⟨⟨fun h => ?_, fun h => absurd h hh⟩, fun h => absurd h hh, fun _ => ⟨rfl, ?_, ?_⟩⟩
      · simp at h
      · intro id hid
        simp at hid
      · intro _ _
        rfl
    | ok machineID =>
      refine ⟨⟨fun h => ?_, fun h => absurd h hh⟩, fun h => absurd h hh, fun _ => ⟨rfl, ?_, ?_⟩⟩
      · simp at h
      · intro id hid
        simp only [Except.ok.injEq] at hid
        rw [hid]
      · intro e he
        simp at he

/-- C19: a successful SaveMetrics appends one sample; it belongs to the returned
machine id, is stamped with the time of the call and holds the five values of
the payload as they came in. -/
theorem saveMetrics_stores_payload_values (s : Storage) (now : Int) (p : MetricPayload)
    (id : Int) (hok : (SaveMetrics s now p).1 = Except.ok id) :
    ∃ r : MetricRow, (SaveMetrics s now p).2.db.metrics = s.db.metrics ++ [r] ∧
      r.machine_id = id ∧ r.collected_at = now ∧
      r.cpu_percent = p.CPUPercent ∧ r.memory_percent = p.MemoryPercent ∧
      r.disk_percent = p.DiskPercent ∧ r.docker_running = p.DockerRunning ∧
      r.docker_stopped = p.DockerStopped := by
  have hm : (UpsertMachine s now p.Hostname p.IP p.GroupName p.SwarmRole).2.db.metrics
      = s.db.metrics := by
    rw [upsertMachine_db, execUpsert_metrics]
  rw [← hm]
  revert hok
  unfold SaveMetrics
  generalize UpsertMachine s now p.Hostname p.IP p.GroupName p.SwarmRole = u
  obtain ⟨res, s1⟩ := u
  cases res with
  | error err => intro h; simp at h
  | ok machineID =>
    simp only
    have hins := insertMetrics_ok_metrics s1 now machineID
      { CPUPercent := p.CPUPercent, MemoryPercent := p.MemoryPercent,
        DiskPercent := p.DiskPercent, DockerRunning := p.DockerRunning,
        DockerStopped := p.DockerStopped }
    revert hins
    generalize InsertMetrics s1 now machineID _ = v
    obtain ⟨res2, s2⟩ := v
    cases res2 with
    | error err2 => intro _ h; simp at h
    | ok u =>
      intro hins h
      simp only [Except.ok.injEq] at h
      subst h
      exact ⟨_, hins rfl, rfl, rfl, rfl, rfl, rfl, rfl, rfl⟩

/-- C19 at a first report with a negative CPU percent, a memory percent of 250
and a negative container count. -/
theorem saveMetrics_stores_payload_values_witness :
    (SaveMetrics (New 90) 1000
      { Hostname := "a", IP := "10.0.0.1", GroupName := "prod", SwarmRole := "none",
        CPUPercent := -5, MemoryPercent := 250, DiskPercent := 100, DockerRunning := -1,
        DockerStopped := 7 }).1 = Except.ok 1 ∧
    ∃ r : MetricRow,
      (SaveMetrics (New 90) 1000
        { Hostname := "a", IP := "10.0.0.1", GroupName := "prod", SwarmRole := "none",
          CPUPercent := -5, MemoryPercent := 250, DiskPercent := 100, DockerRunning := -1,
          DockerStopped := 7 }).2.db.metrics = (New 90).db.metrics ++ [r] ∧
      r.machine_id = 1 ∧ r.collected_at = 1000 ∧
      r.cpu_percent = -5 ∧ r.memory_percent = 250 ∧ r.disk_percent = 100 ∧
      r.docker_running = -1 ∧ r.docker_stopped = 7 :=
  ⟨by rfl,
   saveMetrics_stores_payload_values (New 90) 1000
     { Hostname := "a", IP := "10.0.0.1", GroupName := "prod", SwarmRole := "none",
       CPUPercent := -5, MemoryPercent := 250, DiskPercent := 100, DockerRunning := -1,
       DockerStopped := 7 } 1 (by rfl)⟩

/-- C20 (the code at a failing input): the first UpsertMachine for host a with an
empty group stores the empty string as the group of the row, not the column
default. -/
theorem upsertMachine_first_empty_group :
    (UpsertMachine (New 90) 1000 "a" "10.0.0.1" "" "none").1 = Except.ok 1 ∧
    (UpsertMachine (New 90) 1000 "a" "10.0.0.1" "" "none").2.db.machines =
      [{ id := 1, hostname := "a", ip := "10.0.0.1", group_name := "", swarm_role := "none",
         first_seen := 1000, last_seen := 1000 }] := by
  refine ⟨by rfl, by rfl⟩

/-- C21: whatever calls follow (UpsertMachine, InsertMetrics, SaveMetrics,
CleanupOldMetrics, for the same or another hostname), every machine row keeps
its place, its id, its hostname and its first_seen; rows are only added behind
it.  In particular each registered machine still has a row with the first_seen
it had. -/
theorem first_seen_unchanged (s : Storage) (ops : List Op) :
    s.db.machines.map (fun m => (m.id, m.hostname, m.first_seen)) <+:
      (run s ops).db.machines.map (fun m => (m.id, m.hostname, m.first_seen)) ∧
    ∀ m ∈ s.db.machines, ∃ m2 ∈ (run s ops).db.machines,
      m2.id = m.id ∧ m2.hostname = m.hostname ∧ m2.first_seen = m.first_seen := by
  have hpre := run_first_seen ops s
  refine ⟨hpre, fun m hm => ?_⟩
  have hin : (m.id, m.hostname, m.first_seen) ∈
      (run s ops).db.machines.map (fun m => (m.id, m.hostname, m.first_seen)) :=
    hpre.subset (List.mem_map.mpr ⟨m, hm, rfl⟩)
  obtain ⟨m2, hm2, heq⟩ := List.mem_map.mp hin
  simp only [Prod.mk.injEq] at heq
  exact ⟨m2, hm2, heq.1, heq.2.1, heq.2.2⟩

/-- C22: after UpsertMachine(H, ..) executed at time t there is a row for H and
every row for H has last_seen = t.  With a clock that does not go back, between
any two points of a sequence of calls every machine keeps a row (same id, same
hostname) whose last_seen is not smaller than before. -/
theorem last_seen_monotone (s : Storage) (t t0 : Int) (H ip g r : String)
    (ops1 ops2 : List Op) (hb : ∀ m ∈ s.db.machines, m.last_seen ≤ t0)
    (hclock : clockNondecreasing t0 (ops1 ++ ops2) = true) :
    ((∃ m ∈ (UpsertMachine s t H ip g r).2.db.machines, m.hostname = H) ∧
      ∀ m ∈ (UpsertMachine s t H ip g r).2.db.machines, m.hostname = H → m.last_seen = t) ∧
    ∀ m ∈ (run s ops1).db.machines, ∃ m2 ∈ (run s (ops1 ++ ops2)).db.machines,
      m2.id = m.id ∧ m2.hostname = m.hostname ∧ m.last_seen ≤ m2.last_seen := by
  refine ⟨?_, ?_⟩
  · rw [upsertMachine_db]
    exact execUpsert_last_seen_eq s.db t H ip g r
  · obtain ⟨t1, hb1, hclock2⟩ := run_clock_split ops1 ops2 s t0 hb hclock
    have hrun : run s (ops1 ++ ops2) = run (run s ops1) ops2 := by
      unfold run
      rw [List.foldl_append]
    rw [hrun]
    exact run_last_seen_mono ops2 (run s ops1) t1 hb1 hclock2

/-- C22 on a fresh database: host a registers at second 1000, reports at 1060,
host b reports at 1120, host a again at 4700. -/
theorem last_seen_monotone_witness :
    (∀ m ∈ (New 90).db.machines, m.last_seen ≤ 0) ∧
    clockNondecreasing 0
      ([Op.upsertMachine 1000 "a" "10.0.0.1" "prod" "none",
        Op.saveMetrics 1060 (reportA "10.0.0.1" 10)] ++
       [Op.saveMetrics 1120 { reportA "10.0.0.2" 20 with Hostname := "b" }, Op.reconnect,
        Op.saveMetrics 4700 (reportA "10.0.0.1" 30)]) = true ∧
    ∀ m ∈ (run (New 90)
        [Op.upsertMachine 1000 "a" "10.0.0.1" "prod" "none",
         Op.saveMetrics 1060 (reportA "10.0.0.1" 10)]).db.machines,
      ∃ m2 ∈ (run (New 90)
          ([Op.upsertMachine 1000 "a" "10.0.0.1" "prod" "none",
            Op.saveMetrics 1060 (reportA "10.0.0.1" 10)] ++
           [Op.saveMetrics 1120 { reportA "10.0.0.2" 20 with Hostname := "b" }, Op.reconnect,
            Op.saveMetrics 4700 (reportA "10.0.0.1" 30)])).db.machines,
        m2.id = m.id ∧ m2.hostname = m.hostname ∧ m.last_seen ≤ m2.last_seen :=
  ⟨by simp [New, emptyDB], by decide,
   (last_seen_monotone (New 90) 1000 0 "a" "10.0.0.1" "prod" "none"
     [Op.upsertMachine 1000 "a" "10.0.0.1" "prod" "none",
      Op.saveMetrics 1060 (reportA "10.0.0.1" 10)]
     [Op.saveMetrics 1120 { reportA "10.0.0.2" 20 with Hostname := "b" }, Op.reconnect,
      Op.saveMetrics 4700 (reportA "10.0.0.1" 30)]
     (by simp [New, emptyDB]) (by decide)).2⟩

/-- C25 (counterexample): at 03:00:00.000000000 UTC of day 20000, in the
location UTC, now.After(next) is false and the next run computed is now itself,
not an instant strictly later than now.  In America/New_York at 12:00:00 EST of
2024-03-09, the eve of the clock change, the next run computed is 08:00:00 UTC of
2024-03-10, which is 04:00:00 on the local clock, while 07:00:00 UTC, an earlier
instant later than now, shows 03:00:00. -/
theorem nextCleanup_equals_now_at_three :
    wallClock utcLocation 1728010800000000000 = 3 * 3600 * 1000000000 ∧
    nextCleanup utcLocation 1728010800000000000 = 1728010800000000000 ∧
    wallClock newYork 1710003600000000000 = 12 * 3600 * 1000000000 ∧
    nextCleanup newYork 1710003600000000000 = 1710057600000000000 ∧
    wallClock newYork 1710057600000000000 = 4 * 3600 * 1000000000 ∧
    (1710003600000000000 : Int) < 1710054000000000000 ∧
    1710054000000000000 < nextCleanup newYork 1710003600000000000 ∧
    wallClock newYork 1710054000000000000 = 3 * 3600 * 1000000000 := by
  decide

/-- C25 (amended): in a location whose offset from UTC does not change within
two days of now, the next run computed is the earliest instant not earlier than
now whose local wall-clock time is 03:00:00: it is at most 24 hours away, no
instant from now up to it shows 03:00:00, and it equals now exactly when now
itself is at 03:00:00. -/
theorem nextCleanup_earliest (loc : Location) (nowNs offsetNs : Int)
    (hoff : -dayNs ≤ offsetNs ∧ offsetNs ≤ dayNs)
    (hwin : ∀ t, nowNs - 2 * dayNs ≤ t → t ≤ nowNs + 2 * dayNs → (loc t).offset = offsetNs) :
    nowNs ≤ nextCleanup loc nowNs ∧
    wallClock loc (nextCleanup loc nowNs) = 3 * 3600 * 1000000000 ∧
    (∀ t, nowNs ≤ t → t < nextCleanup loc nowNs →
      wallClock loc t ≠ 3 * 3600 * 1000000000) ∧
    (nextCleanup loc nowNs = nowNs ↔ wallClock loc nowNs = 3 * 3600 * 1000000000) ∧
    nextCleanup loc nowNs - nowNs ≤ 24 * 3600 * 1000000000 := by
  have htoday := todayAtThree_const loc nowNs offsetNs hoff hwin
  have hnext : nextCleanup loc nowNs =
      if nowNs > (nowNs + offsetNs) / dayNs * dayNs + 3 * 3600 * 1000000000 - offsetNs then
        (nowNs + offsetNs) / dayNs * dayNs + 3 * 3600 * 1000000000 - offsetNs +
          24 * 3600 * 1000000000
      else (nowNs + offsetNs) / dayNs * dayNs + 3 * 3600 * 1000000000 - offsetNs := by
    unfold nextCleanup
    rw [htoday]
  have hrange : nowNs ≤ nextCleanup loc nowNs ∧ nextCleanup loc nowNs ≤ nowNs + dayNs := by
    rw [hnext]
    unfold dayNs
    split <;> omega
  have hclock : ∀ t, nowNs ≤ t → t ≤ nowNs + dayNs → wallClock loc t = (t + offsetNs) % dayNs := by
    intro t h1 h2
    unfold wallClock
    rw [hwin t (by unfold dayNs at *; omega) (by unfold dayNs at *; omega)]
  refine ⟨hrange.1, ?_, ?_, ?_, ?_⟩
  · rw [hclock _ hrange.1 hrange.2, hnext]
    unfold dayNs
    split <;> omega
  · intro t h1 h2
    rw [hclock t h1 (by omega)]
    rw [hnext] at h2
    unfold dayNs at *
    split at h2 <;> omega
  · rw [hclock nowNs (le_refl _) (by unfold dayNs; omega), hnext]
    unfold dayNs
    split <;> omega
  · rw [hnext]
    unfold dayNs
    split <;> omega

/-- C25 (amended) in New York at 12:00:00 EDT of 2024-06-15: the next run is
07:00:00 UTC of the next day, 03:00:00 on the local clock. -/
theorem nextCleanup_earliest_witness :
    (-dayNs ≤ (-14400000000000 : Int) ∧ (-14400000000000 : Int) ≤ dayNs) ∧
    (∀ t, 1718467200000000000 - 2 * dayNs ≤ t → t ≤ 1718467200000000000 + 2 * dayNs →
      (newYork t).offset = -14400000000000) ∧
    nextCleanup newYork 1718467200000000000 = 1718521200000000000 ∧
    wallClock newYork (nextCleanup newYork 1718467200000000000) = 3 * 3600 * 1000000000 :=
  ⟨by decide, newYork_summer_2024,
   by decide,
   (nextCleanup_earliest newYork 1718467200000000000 (-14400000000000) (by decide)
     newYork_summer_2024).2.1⟩

/-- C26 (the code at a failing input): three SaveMetrics calls for host a on a
fresh database, scheduled one after the other.  The third fails, and the store
holds one machine row and two samples, not three. -/
theorem saveSerially_same_host_fails :
    (saveSerially (New 90)
      [(1000, reportA "10.0.0.1" 10), (1000, reportA "10.0.0.1" 20),
       (1000, reportA "10.0.0.1" 30)]).1 =
      [Except.ok 1, Except.ok 1,
       Except.error "erro ao inserir métricas: FOREIGN KEY constraint failed"] ∧
    (saveSerially (New 90)
      [(1000, reportA "10.0.0.1" 10), (1000, reportA "10.0.0.1" 20),
       (1000, reportA "10.0.0.1" 30)]).2.db.machines.length = 1 ∧
    (saveSerially (New 90)
      [(1000, reportA "10.0.0.1" 10), (1000, reportA "10.0.0.1" 20),
       (1000, reportA "10.0.0.1" 30)]).2.db.metrics.length = 2 := by
  refine ⟨by rfl, by rfl, by rfl⟩

/-- C30: with a non-empty token configured, authMiddleware hands the request to
the wrapped handler, whatever that handler is, exactly when the Authorization
header equals "Bearer " followed by the token; otherwise it answers 401 and the
store is as before, in particular on the route /api/metrics.  With an empty
token every request is handed on. -/
theorem authMiddleware_bearer (token : String) (r : Request) (s : Storage)
    (ht : token ≠ "") :
    ((∀ next, authMiddleware token next r s = next r s) ↔
      r.authorization = "Bearer " ++ token) ∧
    (r.authorization ≠ "Bearer " ++ token →
      (∀ next, authMiddleware token next r s =
        ({ code := 401, body := Body.text "Unauthorized" }, s)) ∧
      ∀ now, (metricsRoute token now r s).2 = s) ∧
    ∀ next, authMiddleware "" next r s = next r s := by
  have hbad : r.authorization ≠ "Bearer " ++ token →
      ∀ next, authMiddleware token next r s =
        ({ code := 401, body := Body.text "Unauthorized" }, s) := by
    intro hne next
    unfold authMiddleware
    rw [if_neg ht]
    simp only
    rw [if_pos hne]
  refine ⟨⟨fun hall => ?_, fun heq next => ?_⟩, fun hne => ⟨hbad hne, fun now => ?_⟩,
    fun next => ?_⟩
  · by_contra hne
    have h1 := hall (fun _ st => ({ code := 200, body := Body.text "" }, st))
    rw [hbad hne] at h1
    simp at h1
  · unfold authMiddleware
    rw [if_neg ht]
    simp only
    rw [if_neg (fun h => h heq)]
  · unfold metricsRoute
    rw [hbad hne]
  · unfold authMiddleware
    rw [if_pos rfl]

/-- C30 with the token secret: the matching header reaches handleMetrics, a
token sent without the Bearer word is answered 401. -/
theorem authMiddleware_bearer_witness :
    ("secret" : String) ≠ "" ∧
    ((∀ next, authMiddleware "secret" next
        { method := "POST", authorization := "Bearer secret", body := none } (New 90) =
        next { method := "POST", authorization := "Bearer secret", body := none } (New 90)) ↔
      ("Bearer secret" : String) = "Bearer " ++ "secret") ∧
    metricsRoute "secret" 1000
      { method := "POST", authorization := "secret", body := some (reportA "10.0.0.1" 10) }
      (New 90) = ({ code := 401, body := Body.text "Unauthorized" }, New 90) :=
  ⟨by decide,
   (authMiddleware_bearer "secret"
     { method := "POST", authorization := "Bearer secret", body := none } (New 90)
     (by decide)).1,
   by rfl⟩

/-- C27: with sample identifiers pairwise distinct, GetMachinesWithMetrics
returns exactly one entry per machine row, a rearrangement of the machine rows
each joined with its one selected sample or with none: as many entries as rows,
no machine missing or duplicated, whatever the number of its samples and of the
timestamps they share. -/
theorem getMachinesWithMetrics_one_per_machine (s : Storage) (nowNs : Int)
    (hids : (s.db.metrics.map (·.id)).Nodup) :
    ∃ l, GetMachinesWithMetrics s nowNs = Except.ok l ∧
      l.Perm (s.db.machines.map (fun m => scanMachine nowNs m
        ((metRn1 s.db.metrics).filter (fun r => decide (m.id = r.machine_id))).head?)) ∧
      l.length = s.db.machines.length ∧
      (l.map (·.ID)).Perm (s.db.machines.map (·.id)) := by
  have hjoin : s.db.machines.flatMap (fun m => leftJoin m (metRn1 s.db.metrics)) =
      s.db.machines.map (fun m =>
        (m, ((metRn1 s.db.metrics).filter (fun r => decide (m.id = r.machine_id))).head?)) :=
    flatMap_of_singleton _ _ _
      (fun m _ => leftJoin_head m _ (rn1_filter_length_le_one s.db.metrics m.id hids))
  have hperm : List.Perm
      (((s.db.machines.flatMap (fun m => leftJoin m (metRn1 s.db.metrics))).insertionSort
        (fun a b => groupHostLE a b = true)).map (fun row => scanMachine nowNs row.1 row.2))
      (s.db.machines.map (fun m => scanMachine nowNs m
        ((metRn1 s.db.metrics).filter (fun r => decide (m.id = r.machine_id))).head?)) := by
    rw [hjoin]
    have h1 := (List.perm_insertionSort (fun a b => groupHostLE a b = true)
      (s.db.machines.map (fun m =>
        (m, ((metRn1 s.db.metrics).filter (fun r => decide (m.id = r.machine_id))).head?)))).map
      (fun row => scanMachine nowNs row.1 row.2)
    simp only [List.map_map] at h1
    exact h1
  refine ⟨_, rfl, hperm, ?_, ?_⟩
  · rw [hperm.length_eq, List.length_map]
  · have h2 := hperm.map (fun e => e.ID)
    simp only [List.map_map] at h2 ⊢
    exact h2

/-- C27 at host a with two samples of the same second: one entry. -/
theorem getMachinesWithMetrics_one_per_machine_witness :
    (tiedReports.db.metrics.map (·.id)).Nodup ∧
    (samplesOf tiedReports 1).map (fun r => r.collected_at) = [1000, 1000] ∧
    ∃ l, GetMachinesWithMetrics tiedReports 1300000000000 = Except.ok l ∧
      l.length = tiedReports.db.machines.length ∧
      (l.map (·.ID)).Perm (tiedReports.db.machines.map (·.id)) :=
  ⟨by decide, by rfl,
   (getMachinesWithMetrics_one_per_machine tiedReports 1300000000000 (by decide)).imp
     (fun _ h => ⟨h.1, h.2.2.1, h.2.2.2⟩)⟩

/-- C28 (counterexample): host a was last seen at second 1000 and is read
exactly 70 minutes later.  GetMachinesWithMetrics and GetMachineByID set
IsOnline to false and GetStats counts no machine online, while getStatusClass
does not classify the machine as offline. -/
theorem staleness_tests_disagree_at_70_minutes :
    GetMachinesWithMetrics noSamples 5200000000000 = Except.ok
      [scanMachine 5200000000000
        { id := 1, hostname := "a", ip := "10.0.0.1", group_name := "prod",
          swarm_role := "none", first_seen := 1000, last_seen := 1000 } none] ∧
    GetMachineByID noSamples 5200000000000 1 = Except.ok (some
      (scanMachine 5200000000000
        { id := 1, hostname := "a", ip := "10.0.0.1", group_name := "prod",
          swarm_role := "none", first_seen := 1000, last_seen := 1000 } none)) ∧
    (scanMachine 5200000000000
      { id := 1, hostname := "a", ip := "10.0.0.1", group_name := "prod",
        swarm_role := "none", first_seen := 1000, last_seen := 1000 } none).IsOnline = false ∧
    GetStats noSamples 5200 = Except.ok
      { total_machines := 1, online := 0, warning := 0, offline := 1,
        total_containers := 0 } ∧
    getStatusClass (scanMachine 5200000000000
      { id := 1, hostname := "a", ip := "10.0.0.1", group_name := "prod",
        swarm_role := "none", first_seen := 1000, last_seen := 1000 } none) 5200000 ≠
      "offline" := by
  refine ⟨by rfl, by rfl, by rfl, by rfl, ?_⟩
  exact getStatusClass_fresh_not_offline _ 5200000 (by decide)

/-- C28 (amended): read at the same instant, the IsOnline flag and the online
test of GetStats agree for every machine, and GetStats counts as online the
machines whose flag is true; a machine whose flag is true is not classified
offline by getStatusClass, and the two differ exactly when now - lastSeen lies
in the millisecond that starts at 70 minutes, where the flag is false and the
class is not offline. -/
theorem staleness_tests_agree_off_boundary (s : Storage) (m : MachineRow) (nowNs : Int)
    (met : Option MetricRow) :
    ((scanMachine nowNs m met).IsOnline = true ↔
      m.last_seen > nowNs / 1000000000 - 70 * 60) ∧
    (∃ st, GetStats s (nowNs / 1000000000) = Except.ok st ∧
      st.online = (s.db.machines.filter
        (fun x => (scanMachine nowNs x none).IsOnline)).length) ∧
    ((scanMachine nowNs m met).IsOnline = true →
      getStatusClass (scanMachine nowNs m met) (nowNs / 1000000) ≠ "offline") ∧
    (((scanMachine nowNs m met).IsOnline = false ∧
        getStatusClass (scanMachine nowNs m met) (nowNs / 1000000) ≠ "offline") ↔
      (70 * 60 * 1000000000 ≤ nowNs - m.last_seen * 1000000000 ∧
        nowNs - m.last_seen * 1000000000 < 70 * 60 * 1000000000 + 1000000)) := by
  have hflag : (scanMachine nowNs m met).IsOnline = true ↔
      nowNs - m.last_seen * 1000000000 < 70 * 60 * 1000000000 := by
    unfold scanMachine parseDateTime
    simp only [decide_eq_true_eq]
  have hflagF : (scanMachine nowNs m met).IsOnline = false ↔
      ¬ nowNs - m.last_seen * 1000000000 < 70 * 60 * 1000000000 := by
    rw [← hflag]
    simp
  have hls : (scanMachine nowNs m met).LastSeen = m.last_seen := rfl
  have hoff : getStatusClass (scanMachine nowNs m met) (nowNs / 1000000) ≠ "offline" ↔
      ¬ nowNs / 1000000 - m.last_seen * 1000 > 4200000 := by
    constructor
    · intro hne hgt
      exact hne (getStatusClass_stale _ _ (by rw [hls]; exact hgt))
    · intro hfresh
      exact getStatusClass_fresh_not_offline _ _ (by rw [hls]; exact hfresh)
  refine ⟨?_, ⟨_, rfl, ?_⟩, ?_, ?_⟩
  · rw [isOnline_iff_stats]
    simp only [decide_eq_true_eq]
  · show ((s.db.machines.filter
      (fun x => decide (x.last_seen > nowNs / 1000000000 - 70 * 60))).length : Int) = _
    congr 2
    apply List.filter_congr
    intro x _
    rw [isOnline_iff_stats]
  · intro h
    rw [hoff]
    rw [hflag] at h
    omega
  · rw [hflagF, hoff]
    omega

/-- C29: with machine identifiers pairwise distinct and, for each machine,
pairwise distinct collection timestamps, GetMachineByID(id) of a registered id
returns an entry of the list GetMachinesWithMetrics returns at the same instant,
and it is the only entry of that list with this id: machine fields, IsOnline
flag and metric values are the same. -/
theorem getMachineByID_matches_list (s : Storage) (nowNs : Int) (m : MachineRow)
    (hm : m ∈ s.db.machines) (hids : (s.db.machines.map (·.id)).Nodup)
    (hdist : (samplesOf s m.id).Pairwise (fun a b => a.collected_at ≠ b.collected_at)) :
    ∃ l e, GetMachinesWithMetrics s nowNs = Except.ok l ∧
      GetMachineByID s nowNs m.id = Except.ok (some e) ∧
      e ∈ l ∧ ∀ e2 ∈ l, e2.ID = m.id → e2 = e := by
  obtain ⟨l, hl, hmem⟩ := mem_getMachinesWithMetrics s nowNs
  have hby : GetMachineByID s nowNs m.id =
      Except.ok (some (scanMachine nowNs m (metLimit1 s.db.metrics m.id))) := by
    rw [getMachineByID_eq, find_machine_unique s.db.machines m hm hids]
    rfl
  have hsel : ∀ o, (m, o) ∈ leftJoin m (metRn1 s.db.metrics) ↔
      o = metLimit1 s.db.metrics m.id := by
    intro o
    rw [mem_leftJoin]
    by_cases hne : samplesOf s m.id = []
    · have hlim : metLimit1 s.db.metrics m.id = none := by
        have h : metLimit1 s.db.metrics m.id = firstByCollectedDesc (samplesOf s m.id) := rfl
        rw [h, hne]
        rfl
      have hno : ∀ r ∈ metRn1 s.db.metrics, m.id ≠ r.machine_id := by
        intro r hr hid
        have : r ∈ samplesOf s m.id := by
          simp [samplesOf, ((mem_metRn1 _ r).mp hr).1, hid]
        rw [hne] at this
        simp at this
      rw [hlim]
      constructor
      · rintro ⟨_, ⟨ho, _⟩ | ⟨r, hr, hid, _⟩⟩
        · exact ho
        · exact absurd hid (hno r hr)
      · intro ho
        exact ⟨rfl, Or.inl ⟨ho, hno⟩⟩
    · obtain ⟨r, hr, hmax⟩ := exists_max_collected (samplesOf s m.id) hne
      have hr2 : r ∈ s.db.metrics ∧ r.machine_id = m.id := by
        simpa [samplesOf] using hr
      have htop : ∀ x ∈ s.db.metrics, x.machine_id = r.machine_id → x ≠ r →
          comesBefore r x = true := by
        intro x hx hxm hxr
        have hxs : x ∈ samplesOf s m.id := by
          simp only [samplesOf, List.mem_filter, decide_eq_true_eq]
          exact ⟨hx, hxm.trans hr2.2⟩
        have hne2 : x.collected_at ≠ r.collected_at :=
          List.Pairwise.forall (fun _ _ h => Ne.symm h) hdist hxs hr hxr
        have hle := hmax x hxs
        simp only [comesBefore, Bool.or_eq_true, Bool.and_eq_true, decide_eq_true_eq]
        left
        omega
      obtain ⟨hin, huniq⟩ := metRn1_top s.db.metrics r hr2.1 htop
      have hlim : metLimit1 s.db.metrics m.id = some r := by
        unfold metLimit1
        apply firstByCollectedDesc_top
        · simp [hr2.1, hr2.2]
        · intro x hx hxr
          simp only [List.mem_filter, decide_eq_true_eq] at hx
          exact htop x hx.1 (hx.2.trans hr2.2.symm) hxr
      rw [hlim]
      constructor
      · rintro ⟨_, ⟨_, hno⟩ | ⟨x, hx, hid, ho⟩⟩
        · exact absurd hr2.2.symm (hno r hin)
        · rw [ho, huniq x hx (hid.symm.trans hr2.2.symm)]
      · intro ho
        exact ⟨rfl, Or.inr ⟨r, hin, hr2.2.symm, ho⟩⟩
  refine ⟨l, _, hl, hby, ?_, ?_⟩
  · rw [hmem]
    exact ⟨m, hm, _, (hsel _).mpr rfl, rfl⟩
  · intro e2 he2 hid
    obtain ⟨m2, hm2, o, hj, heq⟩ := (hmem e2).mp he2
    have hid2 : m2.id = m.id := by rw [heq] at hid; exact hid
    have hmm : m2 = m := List.inj_on_of_nodup_map hids hm2 hm hid2
    subst hmm
    rw [heq, (hsel o).mp hj]

/-- C29 at host a after two reports one minute apart. -/
theorem getMachineByID_matches_list_witness :
    (twoReports.db.machines.map (·.id)).Nodup ∧
    (samplesOf twoReports 1).Pairwise (fun a b => a.collected_at ≠ b.collected_at) ∧
    ∃ l e, GetMachinesWithMetrics twoReports 1300000000000 = Except.ok l ∧
      GetMachineByID twoReports 1300000000000 1 = Except.ok (some e) ∧
      e ∈ l ∧ ∀ e2 ∈ l, e2.ID = 1 → e2 = e :=
  ⟨by decide, by decide,
   getMachineByID_matches_list twoReports 1300000000000
     { id := 1, hostname := "a", ip := "10.0.0.1", group_name := "prod", swarm_role := "none",
       first_seen := 1000, last_seen := 1060 } (by decide) (by decide) (by decide)⟩

/-- C23: within every group groupMachines produces, a machine standing before
another has a status not later in the order offline, warning, online, and when
the two have the same status their hostnames are in the order of the hostname
comparison (localeCompare, any consistent comparator).  Offline machines thus
precede warning machines, which precede online machines. -/
theorem groupMachines_order (cmp : String → String → Int) (nowMs : Int)
    (machines : List Machine)
    (htotal : ∀ x y, cmp x y ≤ 0 ∨ cmp y x ≤ 0)
    (htrans : ∀ x y z, cmp x y ≤ 0 → cmp y z ≤ 0 → cmp x z ≤ 0)
    (hkeys : ∀ m ∈ machines, groupKey m ∉ objectPrototypeKeys) :
    ∃ groups, groupMachines cmp nowMs machines = Except.ok groups ∧
      ∀ g ∈ groups, g.2.Pairwise (fun a b =>
        statusRank (getStatusClass a nowMs) < statusRank (getStatusClass b nowMs) ∨
        (statusRank (getStatusClass a nowMs) = statusRank (getStatusClass b nowMs) ∧
          cmp a.Hostname b.Hostname ≤ 0)) := by
  obtain ⟨out, hout, _, _, _⟩ := collectGroups_ok machines [] hkeys (by simp) (by simp)
  refine ⟨_, by unfold groupMachines; rw [hout], ?_⟩
  intro g hg
  obtain ⟨g0, _, hg0⟩ := List.mem_map.mp hg
  rw [← hg0]
  haveI : IsTotal Machine (fun a b => compareMachines cmp nowMs a b ≤ 0) :=
    ⟨compareMachines_total cmp nowMs htotal⟩
  haveI : IsTrans Machine (fun a b => compareMachines cmp nowMs a b ≤ 0) :=
    ⟨compareMachines_trans cmp nowMs htrans⟩
  have hsorted : (g0.2.insertionSort (fun a b => compareMachines cmp nowMs a b ≤ 0)).Pairwise
      (fun a b => compareMachines cmp nowMs a b ≤ 0) :=
    List.sorted_insertionSort (fun a b => compareMachines cmp nowMs a b ≤ 0) g0.2
  exact hsorted.imp (fun {a b} hab => (compareMachines_le_iff cmp nowMs a b).mp hab)

/-- C23 on a list of five machines, hostnames compared without regard to
case. -/
theorem groupMachines_order_witness :
    (∀ m ∈ fleet, groupKey m ∉ objectPrototypeKeys) ∧
    ∃ groups, groupMachines caseInsensitiveCompare 20300000 fleet = Except.ok groups ∧
      ∀ g ∈ groups, g.2.Pairwise (fun a b =>
        statusRank (getStatusClass a 20300000) < statusRank (getStatusClass b 20300000) ∨
        (statusRank (getStatusClass a 20300000) = statusRank (getStatusClass b 20300000) ∧
          caseInsensitiveCompare a.Hostname b.Hostname ≤ 0)) :=
  ⟨by decide,
   groupMachines_order caseInsensitiveCompare 20300000 fleet caseInsensitiveCompare_total
     caseInsensitiveCompare_trans (by decide)⟩

/-- C24 (counterexample): host a is stored with an empty group label;
groupMachines files it under the key default, which is not its group label. -/
theorem empty_group_filed_under_default :
    GetMachinesWithMetrics emptyGroupStore 1300000000000 = Except.ok [emptyGroupMachine] ∧
    emptyGroupMachine.GroupName = "" ∧
    groupMachines caseInsensitiveCompare 1300000 [emptyGroupMachine] =
      Except.ok [("default", [emptyGroupMachine])] := by
  refine ⟨by rfl, by rfl, by rfl⟩

/-- C24 (amended): when no group key is a name inherited from Object.prototype,
groupMachines returns groups with pairwise distinct keys whose members together
are the machines of the input, each once; every machine of the group keyed k has
group label k, or an empty label when k is default; render emits these groups in
ascending order of their keys. -/
theorem groupMachines_partition (cmp : String → String → Int) (nowMs : Int)
    (machines : List Machine)
    (hkeys : ∀ m ∈ machines, groupKey m ∉ objectPrototypeKeys) :
    ∃ groups emitted, groupMachines cmp nowMs machines = Except.ok groups ∧
      render cmp nowMs machines = Except.ok emitted ∧
      (groups.flatMap (·.2)).Perm machines ∧
      (groups.map (·.1)).Nodup ∧
      (∀ g ∈ groups, ∀ m ∈ g.2,
        (m.GroupName ≠ "" ∧ m.GroupName = g.1) ∨ (m.GroupName = "" ∧ g.1 = "default")) ∧
      emitted.Perm groups ∧
      emitted.Pairwise (fun a b => keyLE a.1 b.1) := by
  obtain ⟨out, hout, hnd, hall, hperm⟩ :=
    collectGroups_ok machines [] hkeys (by simp) (by simp)
  have hgm : groupMachines cmp nowMs machines = Except.ok (out.map (fun g =>
      (g.1, g.2.insertionSort (fun a b => compareMachines cmp nowMs a b ≤ 0)))) := by
    unfold groupMachines
    rw [hout]
  have hrender : render cmp nowMs machines = Except.ok ((out.map (fun g =>
      (g.1, g.2.insertionSort (fun a b => compareMachines cmp nowMs a b ≤ 0)))).insertionSort
        (fun a b => keyLE a.1 b.1)) := by
    unfold render
    rw [hgm]
  refine ⟨_, _, hgm, hrender, ?_, ?_, ?_, List.perm_insertionSort _ _, ?_⟩
  · refine (flatMap_sorted_perm _ out).trans ?_
    simpa using hperm
  · rw [List.map_map]
    exact hnd
  · intro g hg m hm
    obtain ⟨g0, hg0, heq⟩ := List.mem_map.mp hg
    rw [← heq] at hm ⊢
    have hm0 : m ∈ g0.2 := (List.perm_insertionSort _ _).mem_iff.mp hm
    have hkey := hall g0 hg0 m hm0
    unfold groupKey at hkey
    by_cases hgn : m.GroupName = ""
    · rw [if_pos hgn] at hkey
      exact Or.inr ⟨hgn, hkey.symm⟩
    · rw [if_neg hgn] at hkey
      exact Or.inl ⟨hgn, hkey⟩
  · haveI : IsTotal (String × List Machine) (fun a b => keyLE a.1 b.1) :=
      ⟨fun a b => keyLE_total a.1 b.1⟩
    haveI : IsTrans (String × List Machine) (fun a b => keyLE a.1 b.1) :=
      ⟨fun a b c => keyLE_trans a.1 b.1 c.1⟩
    exact List.sorted_insertionSort
      (fun (a b : String × List Machine) => keyLE a.1 b.1) _

/-- C24 (amended) on the list of five machines. -/
theorem groupMachines_partition_witness :
    (∀ m ∈ fleet, groupKey m ∉ objectPrototypeKeys) ∧
    ∃ groups emitted, groupMachines caseInsensitiveCompare 20300000 fleet = Except.ok groups ∧
      render caseInsensitiveCompare 20300000 fleet = Except.ok emitted ∧
      (groups.flatMap (·.2)).Perm fleet ∧
      (groups.map (·.1)).Nodup ∧
      (∀ g ∈ groups, ∀ m ∈ g.2,
        (m.GroupName ≠ "" ∧ m.GroupName = g.1) ∨ (m.GroupName = "" ∧ g.1 = "default")) ∧
      emitted.Perm groups ∧
      emitted.Pairwise (fun a b => keyLE a.1 b.1) :=
  ⟨by decide, groupMachines_partition caseInsensitiveCompare 20300000 fleet (by decide)⟩

end Monitor
